import Mathlib

/-!
# go-fiber-mongo-hrms: the four employee handlers of `main.go`

A shallow embedding of `src/main.go`.  The handlers registered in `main`
(`GET /employee`, `POST /employee`, `PUT /employee/:id`, `DELETE /employee/:id`)
are translated statement by statement.  The two libraries they call are not
part of the repository and are modelled by small executable definitions:

* the `employees` collection of the MongoDB driver is a list of documents in
  insertion order together with the log of the operations issued against it;
  every operation takes the outcome the environment decided for it (`none`:
  the store carried it out, `some msg`: it failed with error text `msg`
  without being applied);
* the response side of `fiber.Ctx` is a status code and a body
  (`Status`, `SendString`, `JSON`, `SendStatus`).

`float64` values are only copied by the handlers, never computed with, so they
are carried as their IEEE-754 bit pattern.  A response body is the Go value
handed to `c.JSON`, or the text handed to `c.SendString`; of the JSON
serialisation only its failure is modelled: `encoding/json` refuses a
`float64` that is NaN or infinite, `c.JSON` then returns the error, the
handler returns it, and the error handler of the app answers 500 with the
error text.

Conventions of the store model:

* `_id` values are unique within the collection (`Collection.UniqueIds`); the
  operations are defined on any list and a separate theorem shows that every
  request keeps the invariant;
* an `_id` that is an ObjectID is decoded into the Go string field `ID` as its
  24-digit lowercase hexadecimal rendering (the default of the driver's string
  codec);
* `primitive.ObjectIDFromHex` accepts exactly the strings of 24 hexadecimal
  digits, in either case.

The file is organised as: definitions, lemmas on hexadecimal identifiers and
on the collection, then one theorem per specified property.
-/

set_option autoImplicit false

namespace HRMS

/-! ## Data model -/

/-- A Go `float64`, as its IEEE-754 binary64 bit pattern (`math.Float64bits`):
bit 63 is the sign, bits 52..62 the exponent, bits 0..51 the mantissa.
`⟨0⟩` is the zero value `0.0`. -/
structure Float64 where
  bits : Nat
deriving DecidableEq, Repr

namespace Float64

/-- The zero value of `float64`. -/
def zero : Float64 := ⟨0⟩

/-- The sign bit. -/
def sign (f : Float64) : Nat := (f.bits / 2 ^ 63) % 2

/-- The eleven exponent bits. -/
def exponent (f : Float64) : Nat := (f.bits / 2 ^ 52) % 2 ^ 11

/-- The 52 mantissa bits. -/
def mantissa (f : Float64) : Nat := f.bits % 2 ^ 52

/-- True when the value is neither NaN nor an infinity (`!math.IsNaN(f) &&
!math.IsInf(f, 0)`): the exponent bits are not all ones. -/
def isFinite (f : Float64) : Bool := decide (f.exponent ≠ 2047)

/-- Go `strconv.FormatFloat(f, 'g', -1, 64)` on a value that is not finite. -/
def formatSpecial (f : Float64) : String :=
  if f.mantissa ≠ 0 then "NaN" else if f.sign = 0 then "+Inf" else "-Inf"

/-- The error of `json.Marshal` on a `float64`: an `UnsupportedValueError` for
NaN and the infinities, none for a finite value. -/
def jsonError (f : Float64) : Option String :=
  if f.isFinite then none else some ("json: unsupported value: " ++ f.formatSpecial)

end Float64

/-- Go `type Employee struct` (main.go:32-37). -/
structure Employee where
  ID : String
  Name : String
  Salary : Float64
  Age : Float64
deriving DecidableEq, Repr

/-- The zero value `Employee{}`, as produced by `new(Employee)` and `&Employee{}`. -/
def Employee.zero : Employee := ⟨"", "", Float64.zero, Float64.zero⟩

/-- Go `interface{}` values stored in `APIResponse.Data` by the handlers:
a slice of employees (GET) or a pointer to one employee (POST, PUT). -/
inductive Data where
  | employees (es : List Employee)
  | employee (e : Employee)
deriving DecidableEq, Repr

/-- Go `type APIResponse struct` (main.go:20-24).  `Data = none` is the nil
interface, which `omitempty` leaves out of the JSON object; a non-nil
interface holding an empty slice is kept. -/
structure APIResponse where
  Status : Int
  Message : String
  Data : Option Data
deriving DecidableEq, Repr

/-- The error of `json.Marshal` on an `Employee`: the fields are encoded in
declaration order, and strings always encode. -/
def Employee.jsonError (e : Employee) : Option String :=
  match e.Salary.jsonError with
  | some err => some err
  | none => e.Age.jsonError

/-- The error of `json.Marshal` on a `[]Employee`: that of the first element
that cannot be encoded. -/
def employeesJsonError : List Employee → Option String
  | [] => none
  | e :: es =>
    match e.jsonError with
    | some err => some err
    | none => employeesJsonError es

/-- The error of `json.Marshal` on the `Data` of an envelope. -/
def Data.jsonError : Data → Option String
  | .employees es => employeesJsonError es
  | .employee e => e.jsonError

/-- The error of `json.Marshal` on an `APIResponse`, if any. -/
def APIResponse.jsonError (r : APIResponse) : Option String :=
  match r.Data with
  | none => none
  | some d => d.jsonError

/-! ## primitive.ObjectID and encoding/hex -/

/-- Go `primitive.ObjectID`, a `[12]byte`. -/
structure ObjectID where
  bytes : List (Fin 256)
  len : bytes.length = 12
deriving DecidableEq, Repr

/-- Go `hex.fromHexChar`: the value of one hexadecimal digit, either case. -/
def fromHexChar (c : Char) : Option (Fin 16) :=
  if h : 48 ≤ c.toNat ∧ c.toNat ≤ 57 then some ⟨c.toNat - 48, by omega⟩
  else if h : 97 ≤ c.toNat ∧ c.toNat ≤ 102 then some ⟨c.toNat - 97 + 10, by omega⟩
  else if h : 65 ≤ c.toNat ∧ c.toNat ≤ 70 then some ⟨c.toNat - 65 + 10, by omega⟩
  else none

/-- Go `hex.DecodeString`: two digits per byte, high nibble first; fails on an
odd number of digits and on any character that is not a hexadecimal digit. -/
def hexDecode : List Char → Option (List (Fin 256))
  | [] => some []
  | [_] => none
  | p :: q :: rest =>
    match fromHexChar p, fromHexChar q, hexDecode rest with
    | some a, some b, some bs => some (⟨a.val * 16 + b.val, by omega⟩ :: bs)
    | _, _, _ => none

/-- Go `hex.hextable`. -/
def hextable : List Char :=
  ['0', '1', '2', '3', '4', '5', '6', '7', '8', '9', 'a', 'b', 'c', 'd', 'e', 'f']

/-- One digit of `hex.EncodeToString`: `hextable[v]`. -/
def hexDigit (v : Nat) : Char := hextable.getD v '0'

/-- Go `hex.EncodeToString`: `hextable[b>>4]`, `hextable[b&0x0f]` for every byte. -/
def hexEncode : List (Fin 256) → List Char
  | [] => []
  | b :: bs => hexDigit (b.val / 16) :: hexDigit (b.val % 16) :: hexEncode bs

/-- Go `primitive.ObjectIDFromHex`: decode the string as hexadecimal and accept
exactly twelve bytes. -/
def ObjectIDFromHex (s : String) : Option ObjectID :=
  match hexDecode s.data with
  | none => none
  | some bs => if h : bs.length = 12 then some ⟨bs, h⟩ else none

/-- Go `ObjectID.Hex`: the 24 lowercase hexadecimal digits of the id. -/
def ObjectID.Hex (o : ObjectID) : String := String.mk (hexEncode o.bytes)

/-! ## The `employees` collection -/

/-- Value of a document's `_id`: an ObjectID generated by the driver, or the
string the `ID` field held when it was not left out by `omitempty`. -/
inductive Key where
  | oid (o : ObjectID)
  | str (s : String)
deriving DecidableEq, Repr

/-- A document of the collection, with the BSON keys of `Employee`
(`_id`, `name`, `salary`, `age`). -/
structure Doc where
  _id : Key
  name : String
  salary : Float64
  age : Float64
deriving DecidableEq, Repr

/-- Decoding `_id` into the Go string field `ID`: an ObjectID is decoded as its
hexadecimal rendering, a string as itself. -/
def Key.decode : Key → String
  | .oid o => o.Hex
  | .str s => s

/-- Decoding a document into an `Employee` (`cursor.All`, `SingleResult.Decode`). -/
def Doc.decode (d : Doc) : Employee := ⟨d._id.decode, d.name, d.salary, d.age⟩

/-- Errors returned by the driver. -/
inductive MongoError where
  | ErrNoDocuments
  | duplicateKey (k : Key)
  | fault (msg : String)
deriving DecidableEq, Repr

/-- Go `err.Error()`. -/
def MongoError.Error : MongoError → String
  | .ErrNoDocuments => "mongo: no documents in result"
  | .duplicateKey _ => "E11000 duplicate key error"
  | .fault msg => msg

/-- The operations the handlers issue against the collection, with their arguments. -/
inductive StoreOp where
  | Find
  | InsertOne (document : Employee)
  | FindOne (filter : Key)
  | FindOneAndUpdate (filter : Key) (name : String) (age salary : Float64)
  | DeleteOne (filter : Key)
deriving DecidableEq, Repr

/-- State of `mg.DB.Collection("employees")`: the documents in insertion
order, and the operations issued so far. -/
structure Collection where
  docs : List Doc
  issued : List StoreOp
deriving DecidableEq, Repr

/-- What the environment decides for one request: whether the n-th store
operation issued by the handler fails (and with which error text), and the
ObjectID the driver generates for an inserted document that has no `_id`. -/
structure Env where
  fault : Nat → Option String
  NewObjectID : ObjectID

namespace Collection

/-- The `_id` values of the collection. -/
def keys (db : Collection) : List Key := db.docs.map Doc._id

/-- Store invariant of MongoDB: `_id` is unique within a collection. -/
def UniqueIds (db : Collection) : Prop := db.keys.Nodup

instance (db : Collection) : Decidable db.UniqueIds :=
  inferInstanceAs (Decidable (db.keys.Nodup))

/-- Record that an operation was issued. -/
def log (db : Collection) (op : StoreOp) : Collection :=
  { db with issued := db.issued ++ [op] }

/-- Go `Collection.Find(ctx, bson.D{{}})`: a cursor over all documents. -/
def Find (db : Collection) (fault : Option String) :
    Except MongoError (List Doc) × Collection :=
  match fault with
  | some msg => (.error (.fault msg), db.log .Find)
  | none => (.ok db.docs, db.log .Find)

/-- Go `Collection.InsertOne(ctx, employee)`.  The `_id` of the document is the
`ID` field unless `omitempty` drops it (empty string), in which case the driver
generates an ObjectID.  A document whose `_id` is already present is refused. -/
def InsertOne (db : Collection) (fault : Option String) (gen : ObjectID) (e : Employee) :
    Except MongoError Key × Collection :=
  let db1 := db.log (.InsertOne e)
  match fault with
  | some msg => (.error (.fault msg), db1)
  | none =>
    let k := if e.ID = "" then Key.oid gen else Key.str e.ID
    if k ∈ db.keys then (.error (.duplicateKey k), db1)
    else (.ok k, { db1 with docs := db.docs ++ [⟨k, e.Name, e.Salary, e.Age⟩] })

/-- Go `Collection.FindOne(ctx, bson.D{{"_id", k}})`: the `SingleResult`. -/
def FindOne (db : Collection) (fault : Option String) (k : Key) :
    Except MongoError Doc × Collection :=
  let db1 := db.log (.FindOne k)
  match fault with
  | some msg => (.error (.fault msg), db1)
  | none =>
    match db.docs.find? (fun d => decide (d._id = k)) with
    | some d => (.ok d, db1)
    | none => (.error .ErrNoDocuments, db1)

/-- The `$set` of the update handler applied to the first document whose `_id` is `k`. -/
def setFirst (k : Key) (name : String) (age salary : Float64) : List Doc → List Doc
  | [] => []
  | d :: ds =>
    if d._id = k then { d with name := name, age := age, salary := salary } :: ds
    else d :: setFirst k name age salary ds

/-- Go `Collection.FindOneAndUpdate(ctx, {_id: k}, {$set: {name, age, salary}})`:
the `SingleResult` holds the document as it was before the update, or
`ErrNoDocuments` when nothing matched (no upsert). -/
def FindOneAndUpdate (db : Collection) (fault : Option String) (k : Key)
    (name : String) (age salary : Float64) : Except MongoError Doc × Collection :=
  let db1 := db.log (.FindOneAndUpdate k name age salary)
  match fault with
  | some msg => (.error (.fault msg), db1)
  | none =>
    match db.docs.find? (fun d => decide (d._id = k)) with
    | some d => (.ok d, { db1 with docs := setFirst k name age salary db.docs })
    | none => (.error .ErrNoDocuments, db1)

/-- Remove the first document whose `_id` is `k`. -/
def removeFirst (k : Key) : List Doc → List Doc
  | [] => []
  | d :: ds => if d._id = k then ds else d :: removeFirst k ds

/-- Go `Collection.DeleteOne(ctx, {_id: k})`: the result is `DeletedCount`. -/
def DeleteOne (db : Collection) (fault : Option String) (k : Key) :
    Except MongoError Nat × Collection :=
  let db1 := db.log (.DeleteOne k)
  match fault with
  | some msg => (.error (.fault msg), db1)
  | none =>
    if k ∈ db.keys then (.ok 1, { db1 with docs := removeFirst k db.docs })
    else (.ok 0, db1)

end Collection

/-- Go `Cursor.All(ctx, &employees)`: replaces the slice by the decoded
documents; on error the slice is left as it was. -/
def Cursor.All (cursor : List Doc) (fault : Option String) (_employees : List Employee) :
    Except MongoError (List Employee) :=
  match fault with
  | some msg => .error (.fault msg)
  | none => .ok (cursor.map Doc.decode)

/-- Go `SingleResult.Decode(v)`: on a result that holds an error, `v` is left
untouched and the error is returned; otherwise the document is decoded into `v`. -/
def SingleResult.Decode (r : Except MongoError Doc) (v : Employee) :
    Employee × Option MongoError :=
  match r with
  | .error err => (v, some err)
  | .ok d => (d.decode, none)

/-- Go `SingleResult.Err()`. -/
def SingleResult.Err (r : Except MongoError Doc) : Option MongoError :=
  match r with
  | .error err => some err
  | .ok _ => none

/-! ## fiber.Ctx -/

/-- Value of a `fiber.Map` entry used by the handlers. -/
inductive MapValue where
  | int (n : Int)
  | str (s : String)
deriving DecidableEq, Repr

/-- Response body: the text given to `SendString`, or the Go value given to
`c.JSON` (an `APIResponse`, or a `fiber.Map` literal). -/
inductive Body where
  | text (s : String)
  | apiResponse (r : APIResponse)
  | map (m : List (String × MapValue))
deriving DecidableEq, Repr

/-- What a request body parses to: `c.BodyParser` either fails with an error
text, or finds some of the fields `id`, `name`, `salary`, `age`. -/
inductive RequestBody where
  | unparsable (err : String)
  | fields (id name : Option String) (salary age : Option Float64)
deriving DecidableEq, Repr

/-- The response state of a `fiber.Ctx`. -/
structure Response where
  status : Nat
  body : Body
deriving DecidableEq, Repr

/-- The part of `*fiber.Ctx` the handlers use: the `:id` route parameter, the
request body, and the response being built (status 200 and an empty body at
the start). -/
structure Ctx where
  id : String
  reqBody : RequestBody
  response : Response
deriving DecidableEq, Repr

/-- Go `utils.StatusMessage` for the codes the handlers send. -/
def StatusMessage (status : Nat) : String :=
  if status = 200 then "OK"
  else if status = 400 then "Bad Request"
  else if status = 404 then "Not Found"
  else if status = 500 then "Internal Server Error"
  else ""

namespace Ctx

/-- A context as the router hands it to a handler. -/
def fresh (id : String) (reqBody : RequestBody) : Ctx := ⟨id, reqBody, ⟨200, .text ""⟩⟩

/-- Go `c.Params("id")`. -/
def Params (c : Ctx) : String := c.id

/-- Go `c.Status(status)`. -/
def Status (c : Ctx) (status : Nat) : Ctx :=
  { c with response := { c.response with status := status } }

/-- Go `c.SendString(s)`: sets the body; the returned error is always nil. -/
def SendString (c : Ctx) (s : String) : Ctx × Option String :=
  ({ c with response := { c.response with body := .text s } }, none)

/-- Go `c.JSON(v)` for an `APIResponse`: when the encoder fails the error is
returned and the body is left as it was; otherwise the body is set. -/
def JSON (c : Ctx) (r : APIResponse) : Ctx × Option String :=
  match r.jsonError with
  | some err => (c, some err)
  | none => ({ c with response := { c.response with body := .apiResponse r } }, none)

/-- Go `c.JSON(v)` for a `fiber.Map` of integers and strings, which always
encodes. -/
def JSONMap (c : Ctx) (m : List (String × MapValue)) : Ctx × Option String :=
  ({ c with response := { c.response with body := .map m } }, none)

/-- Go `c.SendStatus(status)`: sets the status, and sets the body to the
status message only when there is no response body yet. -/
def SendStatus (c : Ctx) (status : Nat) : Ctx × Option String :=
  let c := c.Status status
  if c.response.body = .text "" then c.SendString (StatusMessage status) else (c, none)

/-- Go `c.BodyParser(employee)`: the fields found in the body overwrite those
of `employee`; the others keep their value. -/
def BodyParser (c : Ctx) (employee : Employee) : Except String Employee :=
  match c.reqBody with
  | .unparsable err => .error err
  | .fields id name salary age =>
    .ok ⟨id.getD employee.ID, name.getD employee.Name,
         salary.getD employee.Salary, age.getD employee.Age⟩

end Ctx

/-! ## main.go -/

/-- Go `sendErrorResponse` (main.go:64-71). -/
def sendErrorResponse (c : Ctx) (statusCode : Nat) (message : String) : Ctx × Option String :=
  let response : APIResponse := ⟨0, message, none⟩
  (c.Status statusCode).JSON response

/-- Handler of `GET /employee` (main.go:81-104): the context it leaves, the
error it returns, and the collection. -/
def getEmployees (c : Ctx) (env : Env) (db : Collection) : (Ctx × Option String) × Collection :=
  match db.Find (env.fault 0) with
  | (.error err, db) => ((c.Status 500).SendString err.Error, db)
  | (.ok cursor, db) =>
    let employees : List Employee := []
    match Cursor.All cursor (env.fault 1) employees with
    | .error err => ((c.Status 500).SendString err.Error, db)
    | .ok employees =>
      let apiResponse : APIResponse :=
        ⟨1, "Employee records retrieved successfully", some (.employees employees)⟩
      ((c.Status 200).JSON apiResponse, db)

/-- Handler of `POST /employee` (main.go:106-138). -/
def postEmployee (c : Ctx) (env : Env) (db : Collection) : (Ctx × Option String) × Collection :=
  let employee := Employee.zero
  match c.BodyParser employee with
  | .error err => ((c.Status 400).SendString err, db)
  | .ok employee =>
    let employee := { employee with ID := "" }
    match db.InsertOne (env.fault 0) env.NewObjectID employee with
    | (.error err, db) => ((c.Status 500).SendString err.Error, db)
    | (.ok insertedID, db) =>
      let (createdRecord, db) := db.FindOne (env.fault 1) insertedID
      let createdEmployee := Employee.zero
      let (createdEmployee, _) := SingleResult.Decode createdRecord createdEmployee
      let apiResponse : APIResponse :=
        ⟨1, "Employee record insertd successfully", some (.employee createdEmployee)⟩
      ((c.Status 200).JSON apiResponse, db)

/-- Handler of `PUT /employee/:id` (main.go:140-187). -/
def putEmployee (c : Ctx) (env : Env) (db : Collection) : (Ctx × Option String) × Collection :=
  let idParam := c.Params
  match ObjectIDFromHex idParam with
  | none => (c.SendStatus 400, db)
  | some employeeID =>
    let employee := Employee.zero
    match c.BodyParser employee with
    | .error err => ((c.Status 400).SendString err, db)
    | .ok employee =>
      let (result, db) :=
        db.FindOneAndUpdate (env.fault 0) (.oid employeeID) employee.Name employee.Age
          employee.Salary
      match SingleResult.Err result with
      | some err =>
        let c := if err = .ErrNoDocuments then (c.SendStatus 400).1 else c
        (c.SendStatus 500, db)
      | none =>
        let employee := { employee with ID := idParam }
        let apiResponse : APIResponse :=
          ⟨1, "Employee record updated successfully", some (.employee employee)⟩
        ((c.Status 200).JSON apiResponse, db)

/-- Handler of `DELETE /employee/:id` (main.go:189-218). -/
def deleteEmployee (c : Ctx) (env : Env) (db : Collection) :
    (Ctx × Option String) × Collection :=
  match ObjectIDFromHex c.Params with
  | none => (sendErrorResponse c 400 "Bad Request", db)
  | some employeeID =>
    match db.DeleteOne (env.fault 0) (.oid employeeID) with
    | (.error _, db) => (c.SendStatus 500, db)
    | (.ok deletedCount, db) =>
      if deletedCount < 1 then
        ((c.Status 404).JSONMap [("status", .int 0), ("message", .str "Not Found")], db)
      else
        ((c.Status 200).JSONMap [("status", .int 1), ("message", .str "record deleted")], db)

/-- A request to one of the four routes registered in `main`. -/
inductive Request where
  | GET_employee (body : RequestBody)
  | POST_employee (body : RequestBody)
  | PUT_employee (id : String) (body : RequestBody)
  | DELETE_employee (id : String) (body : RequestBody)
deriving DecidableEq, Repr

/-- Go `fiber.DefaultErrorHandler`, the error handler of `fiber.New()`: an
error that is not a `*fiber.Error` is answered with status 500 and its text. -/
def DefaultErrorHandler (c : Ctx) (err : String) : Ctx :=
  ((c.Status 500).SendString err).1

/-- The response the app sends once a handler has returned: the one the
handler built, or the one of the error handler when it returned an error. -/
def respond (r : Ctx × Option String) : Response :=
  match r with
  | (c, none) => c.response
  | (c, some err) => (DefaultErrorHandler c err).response

/-- The router: run the handler registered for the request on a fresh context
and return the response sent together with the collection it leaves. -/
def serve (req : Request) (env : Env) (db : Collection) : Response × Collection :=
  match req with
  | .GET_employee body =>
    let (r, db) := getEmployees (Ctx.fresh "" body) env db
    (respond r, db)
  | .POST_employee body =>
    let (r, db) := postEmployee (Ctx.fresh "" body) env db
    (respond r, db)
  | .PUT_employee id body =>
    let (r, db) := putEmployee (Ctx.fresh id body) env db
    (respond r, db)
  | .DELETE_employee id body =>
    let (r, db) := deleteEmployee (Ctx.fresh id body) env db
    (respond r, db)

/-- The response to `return c.Status(200).JSON(r)`: the envelope with status
200, or the 500 of the error handler when `r` cannot be encoded. -/
def sent200 (r : APIResponse) : Response :=
  match r.jsonError with
  | some err => ⟨500, .text err⟩
  | none => ⟨200, .apiResponse r⟩

/-- The envelope status carried by a response body: the `status` field of an
`APIResponse`, or of a `fiber.Map` whose only keys are `status`, `message`
and `data` with an integer `status` and a string `message`; a text body
carries none. -/
def Body.envelopeStatus : Body → Option Int
  | .text _ => none
  | .apiResponse r => some r.Status
  | .map m =>
    match m.lookup "status", m.lookup "message" with
    | some (.int s), some (.str _) =>
      if m.all (fun kv => kv.1 = "status" || kv.1 = "message" || kv.1 = "data") then some s
      else none
    | _, _ => none

/-- Environment in which no store operation fails. -/
def Env.healthy (gen : ObjectID) : Env := ⟨fun _ => none, gen⟩

/-- True when the character is one of the 22 hexadecimal digits. -/
def isHexDigit (c : Char) : Bool :=
  (48 ≤ c.toNat && c.toNat ≤ 57) || (97 ≤ c.toNat && c.toNat ≤ 102) ||
  (65 ≤ c.toNat && c.toNat ≤ 70)

/-- True when the character is a digit or a lowercase letter `a`..`f`. -/
def isLowerHexDigit (c : Char) : Bool :=
  (48 ≤ c.toNat && c.toNat ≤ 57) || (97 ≤ c.toNat && c.toNat ≤ 102)

/-- An ObjectID with all twelve bytes equal to `b`. -/
def ObjectID.replicate (b : Fin 256) : ObjectID := ⟨List.replicate 12 b, by simp⟩

/-- The `Employee` a request body with the given fields parses to, once the
create handler has cleared its `ID`. -/
def parsedEmployee (name : Option String) (salary age : Option Float64) : Employee :=
  ⟨"", name.getD "", salary.getD Float64.zero, age.getD Float64.zero⟩

/-- The store operations of a create request for `e` succeed: the insert
returns an inserted id, and the read-back is carried out. -/
def storeOpsSucceed (env : Env) (db : Collection) (e : Employee) : Prop :=
  (db.InsertOne (env.fault 0) env.NewObjectID { e with ID := "" }).1.toOption.isSome = true ∧
    env.fault 1 = none

/-- Run create requests one after the other, each in its own environment. -/
def runCreates : List (RequestBody × Env) → Collection → List Response × Collection
  | [], db => ([], db)
  | (body, env) :: rest, db =>
    let (r, db1) := serve (.POST_employee body) env db
    let (rs, db2) := runCreates rest db1
    (r :: rs, db2)

/-- Every create request of the run has a parsable body, its store operations
succeed, and it is answered 200. -/
def CreatesSucceed : List (RequestBody × Env) → Collection → Prop
  | [], _ => True
  | (body, env) :: rest, db =>
    (match body with
     | .unparsable _ => False
     | .fields _ name salary age => storeOpsSucceed env db (parsedEmployee name salary age)) ∧
    (serve (.POST_employee body) env db).1.status = 200 ∧
    CreatesSucceed rest (serve (.POST_employee body) env db).2

/-- Every stored salary and age is a finite number. -/
def Collection.AllFinite (db : Collection) : Prop :=
  ∀ d ∈ db.docs, d.salary.isFinite = true ∧ d.age.isFinite = true

instance (db : Collection) : Decidable db.AllFinite :=
  inferInstanceAs (Decidable (∀ d ∈ db.docs, d.salary.isFinite = true ∧ d.age.isFinite = true))

/-- Go `math.NaN()`. -/
def Float64.NaN : Float64 := ⟨0x7FF8000000000001⟩

/-- Go `math.Inf(1)`. -/
def Float64.Inf : Float64 := ⟨0x7FF0000000000000⟩

/-- Environment in which the n-th store operation of the request fails. -/
def Env.failing (n : Nat) (msg : String) (gen : ObjectID) : Env :=
  ⟨fun i => if i = n then some msg else none, gen⟩

/-- A sample ObjectID, rendered `abababababababababababab`. -/
def sampleId : ObjectID := ObjectID.replicate 171

/-- A second sample ObjectID, rendered `010101010101010101010101`. -/
def sampleId2 : ObjectID := ObjectID.replicate 1

/-- A sample collection holding one record under `sampleId`. -/
def sampleDb : Collection := ⟨[⟨.oid sampleId, "Ann", ⟨1000⟩, ⟨30⟩⟩], []⟩

/-- A sample collection holding one record whose salary is NaN. -/
def nanDb : Collection := ⟨[⟨.oid sampleId, "Ann", Float64.NaN, ⟨30⟩⟩], []⟩

/-! ## Hexadecimal lemmas -/

theorem isHexDigit_iff_fromHexChar (c : Char) :
    isHexDigit c = true ↔ ∃ v, fromHexChar c = some v := by
  unfold isHexDigit fromHexChar
  constructor
  · intro h
    simp only [Bool.or_eq_true, Bool.and_eq_true, decide_eq_true_eq] at h
    split_ifs <;> first | exact ⟨_, rfl⟩ | omega
  · intro h
    obtain ⟨v, hv⟩ := h
    simp only [Bool.or_eq_true, Bool.and_eq_true, decide_eq_true_eq]
    split_ifs at hv <;> omega

theorem hexDigit_decimal (n : Nat) (h1 : 48 ≤ n) (h2 : n ≤ 57) :
    hexDigit (n - 48) = Char.ofNat n := by
  interval_cases n <;> rfl

theorem hexDigit_letter (n : Nat) (h1 : 97 ≤ n) (h2 : n ≤ 102) :
    hexDigit (n - 97 + 10) = Char.ofNat n := by
  interval_cases n <;> rfl

theorem hexDigit_of_lower (c : Char) (v : Fin 16) (h : fromHexChar c = some v)
    (hl : isLowerHexDigit c = true) : hexDigit v.val = c := by
  have hc : Char.ofNat c.toNat = c := Char.ofNat_toNat c
  unfold isLowerHexDigit at hl
  simp only [Bool.or_eq_true, Bool.and_eq_true, decide_eq_true_eq] at hl
  unfold fromHexChar at h
  split_ifs at h with h1 h2 h3
  · simp only [Option.some.injEq] at h
    subst h
    show hexDigit (c.toNat - 48) = c
    rw [hexDigit_decimal _ h1.1 h1.2, hc]
  · simp only [Option.some.injEq] at h
    subst h
    show hexDigit (c.toNat - 97 + 10) = c
    rw [hexDigit_letter _ h2.1 h2.2, hc]
  · omega

theorem isLowerHexDigit_hexDigit (v : Nat) (h : v < 16) : isLowerHexDigit (hexDigit v) = true := by
  interval_cases v <;> rfl

theorem hexDecode_cons_cons (p q : Char) (rest : List Char) (bs : List (Fin 256))
    (h : hexDecode (p :: q :: rest) = some bs) :
    ∃ a b bs1, fromHexChar p = some a ∧ fromHexChar q = some b ∧ hexDecode rest = some bs1 ∧
      bs = ⟨a.val * 16 + b.val, by omega⟩ :: bs1 := by
  unfold hexDecode at h
  split at h
  · next a b bs1 ha hb hr =>
    simp only [Option.some.injEq] at h
    exact ⟨a, b, bs1, ha, hb, hr, h.symm⟩
  · exact absurd h (by simp)

theorem hexDecode_some : ∀ (l : List Char) (bs : List (Fin 256)), hexDecode l = some bs →
    l.length = 2 * bs.length ∧ ∀ c ∈ l, isHexDigit c = true
  | [], bs, h => by
    simp only [hexDecode, Option.some.injEq] at h
    subst h
    simp
  | [_], bs, h => by simp [hexDecode] at h
  | p :: q :: rest, bs, h => by
    obtain ⟨a, b, bs1, ha, hb, hr, rfl⟩ := hexDecode_cons_cons p q rest bs h
    obtain ⟨hlen, hall⟩ := hexDecode_some rest bs1 hr
    refine ⟨by simp only [List.length_cons]; omega, ?_⟩
    intro c hc
    simp only [List.mem_cons] at hc
    rcases hc with rfl | rfl | hc
    · exact (isHexDigit_iff_fromHexChar _).2 ⟨a, ha⟩
    · exact (isHexDigit_iff_fromHexChar _).2 ⟨b, hb⟩
    · exact hall c hc

theorem hexDecode_of_hex : ∀ (n : Nat) (l : List Char), l.length = 2 * n →
    (∀ c ∈ l, isHexDigit c = true) → ∃ bs, hexDecode l = some bs ∧ bs.length = n
  | 0, l, hlen, _ => by
    have : l = [] := List.length_eq_zero.mp (by omega)
    subst this
    exact ⟨[], rfl, rfl⟩
  | n + 1, [], hlen, _ => by simp at hlen
  | n + 1, [_], hlen, _ => by simp at hlen; omega
  | n + 1, p :: q :: rest, hlen, hall => by
    obtain ⟨a, ha⟩ := (isHexDigit_iff_fromHexChar p).1 (hall p (by simp))
    obtain ⟨b, hb⟩ := (isHexDigit_iff_fromHexChar q).1 (hall q (by simp))
    obtain ⟨bs1, hr, hl1⟩ := hexDecode_of_hex n rest (by simp only [List.length_cons] at hlen; omega)
      (fun c hc => hall c (by simp [hc]))
    refine ⟨⟨a.val * 16 + b.val, by omega⟩ :: bs1, ?_, by simp [hl1]⟩
    simp only [hexDecode, ha, hb, hr]

theorem hexEncode_hexDecode : ∀ (l : List Char) (bs : List (Fin 256)), hexDecode l = some bs →
    (∀ c ∈ l, isLowerHexDigit c = true) → hexEncode bs = l
  | [], bs, h, _ => by
    simp only [hexDecode, Option.some.injEq] at h
    subst h
    rfl
  | [_], bs, h, _ => by simp [hexDecode] at h
  | p :: q :: rest, bs, h, hall => by
    obtain ⟨a, b, bs1, ha, hb, hr, rfl⟩ := hexDecode_cons_cons p q rest bs h
    have ih := hexEncode_hexDecode rest bs1 hr (fun c hc => hall c (by simp [hc]))
    have h1 : (a.val * 16 + b.val) / 16 = a.val := by omega
    have h2 : (a.val * 16 + b.val) % 16 = b.val := by omega
    simp only [hexEncode, h1, h2, ih]
    rw [hexDigit_of_lower p a ha (hall p (by simp)), hexDigit_of_lower q b hb (hall q (by simp))]

theorem hexEncode_length (bs : List (Fin 256)) : (hexEncode bs).length = 2 * bs.length := by
  induction bs with
  | nil => rfl
  | cons b bs ih => simp only [hexEncode, List.length_cons, ih]; omega

theorem hexEncode_lower (bs : List (Fin 256)) : ∀ c ∈ hexEncode bs, isLowerHexDigit c = true := by
  induction bs with
  | nil => intro c hc; simp [hexEncode] at hc
  | cons b bs ih =>
    intro c hc
    simp only [hexEncode, List.mem_cons] at hc
    rcases hc with rfl | rfl | hc
    · exact isLowerHexDigit_hexDigit _ (by omega)
    · exact isLowerHexDigit_hexDigit _ (by omega)
    · exact ih c hc

/-- An identifier is accepted exactly when it consists of 24 hexadecimal digits. -/
theorem ObjectIDFromHex_eq_none_iff (s : String) :
    ObjectIDFromHex s = none ↔ ¬ (s.length = 24 ∧ ∀ c ∈ s.data, isHexDigit c = true) := by
  unfold ObjectIDFromHex
  constructor
  · intro h ⟨hlen, hall⟩
    obtain ⟨bs, hbs, hl⟩ := hexDecode_of_hex 12 s.data hlen hall
    simp [hbs, hl] at h
  · intro h
    split
    · rfl
    · next bs hbs =>
      obtain ⟨hlen, hall⟩ := hexDecode_some s.data bs hbs
      split_ifs with h12
      · exact absurd ⟨by show s.data.length = 24; omega, hall⟩ h
      · rfl

theorem ObjectIDFromHex_some (s : String) (o : ObjectID) (h : ObjectIDFromHex s = some o) :
    hexDecode s.data = some o.bytes := by
  unfold ObjectIDFromHex at h
  split at h
  · exact absurd h (by simp)
  · next bs hbs =>
    split_ifs at h with h12
    simp only [Option.some.injEq] at h
    subst h
    exact hbs

theorem Hex_ObjectIDFromHex (s : String) (o : ObjectID) (h : ObjectIDFromHex s = some o)
    (hl : ∀ c ∈ s.data, isLowerHexDigit c = true) : o.Hex = s := by
  unfold ObjectID.Hex
  rw [hexEncode_hexDecode s.data o.bytes (ObjectIDFromHex_some s o h) hl]

theorem Hex_lower (o : ObjectID) : ∀ c ∈ o.Hex.data, isLowerHexDigit c = true :=
  hexEncode_lower o.bytes

theorem Hex_ne_empty (o : ObjectID) : o.Hex ≠ "" := by
  intro h
  have h1 : o.Hex.data.length = 24 := by
    show (hexEncode o.bytes).length = 24
    rw [hexEncode_length, o.len]
  rw [h] at h1
  simp at h1

/-! ## Collection lemmas -/

theorem find?_of_mem_keys (k : Key) (docs : List Doc) (h : k ∈ docs.map Doc._id) :
    ∃ d, docs.find? (fun d => decide (d._id = k)) = some d ∧ d._id = k := by
  induction docs with
  | nil => simp at h
  | cons d ds ih =>
    by_cases hd : d._id = k
    · exact ⟨d, by simp [List.find?, hd], hd⟩
    · have hk : k ∈ ds.map Doc._id := by
        simp only [List.map_cons, List.mem_cons] at h
        rcases h with h | h
        · exact absurd h.symm hd
        · exact h
      obtain ⟨d1, h1, h2⟩ := ih hk
      exact ⟨d1, by simp [List.find?, hd, h1], h2⟩

theorem find?_of_not_mem_keys (k : Key) (docs : List Doc) (h : k ∉ docs.map Doc._id) :
    docs.find? (fun d => decide (d._id = k)) = none := by
  induction docs with
  | nil => rfl
  | cons d ds ih =>
    simp only [List.map_cons, List.mem_cons, not_or] at h
    have hd : ¬ d._id = k := fun e => h.1 e.symm
    simp [List.find?, hd, ih h.2]

theorem find?_append_new (k : Key) (docs : List Doc) (d : Doc) (h : k ∉ docs.map Doc._id)
    (hd : d._id = k) : (docs ++ [d]).find? (fun d => decide (d._id = k)) = some d := by
  rw [List.find?_append, find?_of_not_mem_keys k docs h]
  simp [List.find?, hd]

theorem InsertOne_ok (db : Collection) (fault : Option String) (gen : ObjectID) (e : Employee)
    (h : (db.InsertOne fault gen e).1.toOption.isSome = true) :
    fault = none ∧ (if e.ID = "" then Key.oid gen else Key.str e.ID) ∉ db.keys := by
  unfold Collection.InsertOne at h
  cases fault with
  | some msg => simp [Except.toOption] at h
  | none =>
    refine ⟨rfl, ?_⟩
    intro hk
    simp [hk, Except.toOption] at h

theorem setFirst_keys (k : Key) (name : String) (age salary : Float64) (docs : List Doc) :
    (Collection.setFirst k name age salary docs).map Doc._id = docs.map Doc._id := by
  induction docs with
  | nil => rfl
  | cons d ds ih =>
    unfold Collection.setFirst
    split_ifs with h
    · simp
    · simp [ih]

theorem setFirst_eq_map (k : Key) (name : String) (age salary : Float64) (docs : List Doc)
    (hnd : (docs.map Doc._id).Nodup) :
    Collection.setFirst k name age salary docs =
      docs.map (fun d => if d._id = k then ⟨d._id, name, salary, age⟩ else d) := by
  induction docs with
  | nil => rfl
  | cons d ds ih =>
    simp only [List.map_cons, List.nodup_cons] at hnd
    unfold Collection.setFirst
    split_ifs with h
    · simp only [List.map_cons, h, if_true, List.cons.injEq, true_and]
      symm
      conv_rhs => rw [← List.map_id ds]
      apply List.map_congr_left
      intro x hx
      have : x._id ≠ k := by
        intro hxk
        apply hnd.1
        rw [h, ← hxk]
        exact List.mem_map_of_mem _ hx
      simp [this]
    · simp only [List.map_cons, h, if_false, ih hnd.2]

theorem removeFirst_eq_filter (k : Key) (docs : List Doc) (hnd : (docs.map Doc._id).Nodup) :
    Collection.removeFirst k docs = docs.filter (fun d => decide (d._id ≠ k)) := by
  induction docs with
  | nil => rfl
  | cons d ds ih =>
    simp only [List.map_cons, List.nodup_cons] at hnd
    unfold Collection.removeFirst
    split_ifs with h
    · have hall : ∀ x ∈ ds, decide (x._id ≠ k) = true := by
        intro x hx
        have : x._id ≠ k := by
          intro hxk
          apply hnd.1
          rw [h, ← hxk]
          exact List.mem_map_of_mem _ hx
        simp [this]
      simp only [List.filter_cons, h, ne_eq, not_true_eq_false, decide_False]
      exact (List.filter_eq_self.2 hall).symm
    · simp [List.filter_cons, h, ih hnd.2]

theorem removeFirst_length (k : Key) (docs : List Doc) (h : k ∈ docs.map Doc._id) :
    (Collection.removeFirst k docs).length + 1 = docs.length := by
  induction docs with
  | nil => simp at h
  | cons d ds ih =>
    unfold Collection.removeFirst
    split_ifs with hd
    · simp
    · simp only [List.map_cons, List.mem_cons] at h
      rcases h with h | h
      · exact absurd h.symm hd
      · simp [ih h]

/-! ## JSON encoding lemmas -/

theorem Float64.float_jsonError_eq_none (f : Float64) : f.jsonError = none ↔ f.isFinite = true := by
  unfold Float64.jsonError
  cases f.isFinite <;> simp

theorem Employee.employee_jsonError_eq_none (e : Employee) :
    e.jsonError = none ↔ e.Salary.isFinite = true ∧ e.Age.isFinite = true := by
  unfold Employee.jsonError
  cases hs : e.Salary.jsonError with
  | some err =>
    have : ¬ e.Salary.isFinite = true := fun h => by
      rw [(Float64.float_jsonError_eq_none _).2 h] at hs
      exact absurd hs (by simp)
    simp [this]
  | none =>
    have := (Float64.float_jsonError_eq_none _).1 hs
    simp [this, Float64.float_jsonError_eq_none]

theorem employeesJsonError_eq_none (es : List Employee) :
    employeesJsonError es = none ↔ ∀ e ∈ es, e.jsonError = none := by
  induction es with
  | nil => simp [employeesJsonError]
  | cons e es ih =>
    unfold employeesJsonError
    cases he : e.jsonError with
    | some err => simp [he]
    | none => simp [he, ih]

theorem sent200_of_encodable (r : APIResponse) (h : r.jsonError = none) :
    sent200 r = ⟨200, .apiResponse r⟩ := by
  simp only [sent200, h]

theorem sent200_of_error (r : APIResponse) (err : String) (h : r.jsonError = some err) :
    sent200 r = ⟨500, .text err⟩ := by
  simp only [sent200, h]

theorem sent200_status (r : APIResponse) : (sent200 r).status = 200 ↔ r.jsonError = none := by
  unfold sent200
  cases r.jsonError <;> simp

theorem respond_JSON (id : String) (body : RequestBody) (r : APIResponse) :
    respond (((Ctx.fresh id body).Status 200).JSON r) = sent200 r := by
  unfold Ctx.JSON sent200
  cases r.jsonError <;> rfl

/-! ## The handlers with the context plumbing removed -/

theorem InsertOne_issued (db : Collection) (fault : Option String) (gen : ObjectID)
    (e : Employee) : (db.InsertOne fault gen e).2.issued = db.issued ++ [.InsertOne e] := by
  unfold Collection.InsertOne
  cases fault with
  | some msg => rfl
  | none =>
    simp only
    split_ifs <;> rfl

theorem FindOne_issued (db : Collection) (fault : Option String) (k : Key) :
    (db.FindOne fault k).2.issued = db.issued ++ [.FindOne k] := by
  unfold Collection.FindOne
  cases fault with
  | some msg => rfl
  | none =>
    simp only
    split <;> rfl

/-- The create handler on a parsable body. -/
theorem serve_post_fields (env : Env) (db : Collection) (id name : Option String)
    (salary age : Option Float64) :
    serve (.POST_employee (.fields id name salary age)) env db =
      match db.InsertOne (env.fault 0) env.NewObjectID (parsedEmployee name salary age) with
      | (.error err, db1) => (⟨500, .text err.Error⟩, db1)
      | (.ok k, db1) =>
        (sent200 ⟨1, "Employee record insertd successfully",
            some (.employee (SingleResult.Decode (db1.FindOne (env.fault 1) k).1
              Employee.zero).1)⟩,
         (db1.FindOne (env.fault 1) k).2) := by
  simp only [serve, postEmployee, Ctx.BodyParser, Ctx.fresh, parsedEmployee, Employee.zero]
  rcases db.InsertOne (env.fault 0) env.NewObjectID
    ⟨"", name.getD "", salary.getD Float64.zero, age.getD Float64.zero⟩ with ⟨r, db1⟩
  cases r with
  | error err => rfl
  | ok k =>
    simp only
    rw [← respond_JSON "" (.fields id name salary age)]
    rfl

/-- The response and collection left by a create request whose store
operations succeed. -/
theorem post_of_storeOpsSucceed (env : Env) (db : Collection) (id name : Option String)
    (salary age : Option Float64) (h : storeOpsSucceed env db (parsedEmployee name salary age)) :
    serve (.POST_employee (.fields id name salary age)) env db =
      (sent200 ⟨1, "Employee record insertd successfully",
          some (.employee { parsedEmployee name salary age with ID := env.NewObjectID.Hex })⟩,
       ⟨db.docs ++ [⟨.oid env.NewObjectID, name.getD "", salary.getD Float64.zero,
          age.getD Float64.zero⟩],
        db.issued ++ [.InsertOne (parsedEmployee name salary age),
          .FindOne (.oid env.NewObjectID)]⟩) := by
  obtain ⟨hins, hread⟩ := h
  obtain ⟨hf, hk⟩ := InsertOne_ok _ _ _ _ hins
  simp only [if_true] at hk
  have hk2 : Key.oid env.NewObjectID ∉ db.docs.map Doc._id := hk
  rw [serve_post_fields]
  simp only [parsedEmployee, Employee.zero,
    Collection.InsertOne, hf, if_true, hk, if_false, Collection.FindOne, hread, Collection.log,
    find?_append_new _ db.docs ⟨.oid env.NewObjectID, name.getD "", salary.getD Float64.zero,
      age.getD Float64.zero⟩ hk2 rfl,
    SingleResult.Decode, Doc.decode, Key.decode, List.append_assoc,
    List.singleton_append]

/-- C1 (as stated, refuted): a create request whose body carries the salary
NaN is parsed, inserted and read back, and is then answered 500 because the
JSON encoder refuses the record. -/
theorem post_nan_salary_answers_500 :
    storeOpsSucceed (Env.healthy sampleId2) sampleDb ⟨"", "Bob", Float64.NaN, ⟨41⟩⟩ ∧
    serve (.POST_employee (.fields none (some "Bob") (some Float64.NaN) (some ⟨41⟩)))
        (Env.healthy sampleId2) sampleDb =
      (⟨500, .text "json: unsupported value: NaN"⟩,
       ⟨[⟨.oid sampleId, "Ann", ⟨1000⟩, ⟨30⟩⟩, ⟨.oid sampleId2, "Bob", Float64.NaN, ⟨41⟩⟩],
        [.InsertOne ⟨"", "Bob", Float64.NaN, ⟨41⟩⟩, .FindOne (.oid sampleId2)]⟩) :=
  ⟨⟨by decide, rfl⟩, by decide⟩

/-- C1 (amended): a create request with fields name, salary and age whose store
operations succeed leaves the old collection plus exactly one record, stored
under an `_id` that was no key of the collection before and whose rendering is
non-empty; it is answered 200 exactly when salary and age are finite numbers,
and the answer is then the envelope of status 1 whose data record carries
exactly the submitted name, salary and age and that identifier. -/
theorem post_creates_record (env : Env) (db : Collection) (id : Option String) (name : String)
    (salary age : Float64) (h : storeOpsSucceed env db ⟨"", name, salary, age⟩) :
    (salary.isFinite = true → age.isFinite = true →
      (serve (.POST_employee (.fields id (some name) (some salary) (some age))) env db).1 =
        ⟨200, .apiResponse ⟨1, "Employee record insertd successfully",
          some (.employee ⟨env.NewObjectID.Hex, name, salary, age⟩)⟩⟩) ∧
    ((serve (.POST_employee (.fields id (some name) (some salary) (some age))) env db).1.status
        = 200 ↔ salary.isFinite = true ∧ age.isFinite = true) ∧
    (serve (.POST_employee (.fields id (some name) (some salary) (some age))) env db).2 =
      ⟨db.docs ++ [⟨.oid env.NewObjectID, name, salary, age⟩],
       db.issued ++ [.InsertOne ⟨"", name, salary, age⟩, .FindOne (.oid env.NewObjectID)]⟩ ∧
    env.NewObjectID.Hex ≠ "" ∧
    (∀ d ∈ db.docs, d._id ≠ .oid env.NewObjectID) := by
  have hp := post_of_storeOpsSucceed env db id (some name) (some salary) (some age) h
  have henc : (⟨1, "Employee record insertd successfully",
      some (.employee ⟨env.NewObjectID.Hex, name, salary, age⟩)⟩ : APIResponse).jsonError = none ↔
      salary.isFinite = true ∧ age.isFinite = true :=
    Employee.employee_jsonError_eq_none ⟨env.NewObjectID.Hex, name, salary, age⟩
  rw [hp]
  refine ⟨?_, ?_, rfl, Hex_ne_empty _, ?_⟩
  · intro hs ha
    exact sent200_of_encodable _ (henc.2 ⟨hs, ha⟩)
  · exact (sent200_status _).trans henc
  · obtain ⟨hf, hk⟩ := InsertOne_ok _ _ _ _ h.1
    simp only [if_true] at hk
    intro d hd hid
    exact hk (hid ▸ List.mem_map_of_mem Doc._id hd)

theorem post_creates_record_witness :
    storeOpsSucceed (Env.healthy sampleId2) sampleDb ⟨"", "Bob", ⟨2000⟩, ⟨41⟩⟩ ∧
    (serve (.POST_employee (.fields (some "x") (some "Bob") (some ⟨2000⟩) (some ⟨41⟩)))
        (Env.healthy sampleId2) sampleDb).1 =
      ⟨200, .apiResponse ⟨1, "Employee record insertd successfully",
          some (.employee ⟨"010101010101010101010101", "Bob", ⟨2000⟩, ⟨41⟩⟩)⟩⟩ ∧
    (serve (.POST_employee (.fields (some "x") (some "Bob") (some ⟨2000⟩) (some ⟨41⟩)))
        (Env.healthy sampleId2) sampleDb).2 =
      ⟨[⟨.oid sampleId, "Ann", ⟨1000⟩, ⟨30⟩⟩, ⟨.oid sampleId2, "Bob", ⟨2000⟩, ⟨41⟩⟩],
        [.InsertOne ⟨"", "Bob", ⟨2000⟩, ⟨41⟩⟩, .FindOne (.oid sampleId2)]⟩ :=
  have hs : storeOpsSucceed (Env.healthy sampleId2) sampleDb ⟨"", "Bob", ⟨2000⟩, ⟨41⟩⟩ :=
    ⟨by decide, rfl⟩
  have h := post_creates_record (Env.healthy sampleId2) sampleDb (some "x") "Bob" ⟨2000⟩ ⟨41⟩ hs
  ⟨hs, (h.1 (by decide) (by decide)).trans (by decide), h.2.2.1.trans (by decide)⟩

/-- C2 (evaluation at the failing input): when the insert succeeds and the
read-back of the inserted record fails, the create handler still answers 200
with status 1, and the data record is the zero-valued employee. -/
theorem post_readback_failure_answers_200 :
    serve (.POST_employee (.fields none (some "Ann") (some ⟨1000⟩) (some ⟨30⟩)))
        (Env.failing 1 "connection reset" sampleId) ⟨[], []⟩ =
      (⟨200, .apiResponse ⟨1, "Employee record insertd successfully",
          some (.employee ⟨"", "", ⟨0⟩, ⟨0⟩⟩)⟩⟩,
       ⟨[⟨.oid sampleId, "Ann", ⟨1000⟩, ⟨30⟩⟩],
        [.InsertOne ⟨"", "Ann", ⟨1000⟩, ⟨30⟩⟩, .FindOne (.oid sampleId)]⟩) := by
  decide

/-- The error paths of the create handler that do answer with an error status:
an unparsable body is answered 400 without touching the collection, and a
failed insert is answered 500 with the documents unchanged. -/
theorem post_error_paths (env : Env) (db : Collection) :
    (∀ err, serve (.POST_employee (.unparsable err)) env db = (⟨400, .text err⟩, db)) ∧
    (∀ id name salary age,
      (db.InsertOne (env.fault 0) env.NewObjectID
        (parsedEmployee name salary age)).1.toOption.isSome = false →
      (serve (.POST_employee (.fields id name salary age)) env db).1.status = 500 ∧
      (serve (.POST_employee (.fields id name salary age)) env db).2.docs = db.docs) := by
  refine ⟨fun err => rfl, ?_⟩
  intro id name salary age h
  rw [serve_post_fields]
  generalize parsedEmployee name salary age = e at h ⊢
  simp only [Collection.InsertOne, Collection.log] at h ⊢
  cases hf : env.fault 0 with
  | some msg => exact ⟨rfl, rfl⟩
  | none =>
    rw [hf] at h
    simp only at h ⊢
    split_ifs at h ⊢ with h1 h2 h2
    · exact ⟨rfl, rfl⟩
    · simp [Except.toOption] at h
    · exact ⟨rfl, rfl⟩
    · simp [Except.toOption] at h

/-- C3: the identifier of a created record does not depend on the request:
two parsable create bodies that parse to the same name, salary and age, with
any `id` fields, hand the same document (with the identifier cleared) to the
insert and produce the same response and the same collection. -/
theorem post_ignores_body_id (env : Env) (db : Collection) (id1 id2 name1 name2 : Option String)
    (salary1 salary2 age1 age2 : Option Float64)
    (hname : name1.getD "" = name2.getD "")
    (hsalary : salary1.getD Float64.zero = salary2.getD Float64.zero)
    (hage : age1.getD Float64.zero = age2.getD Float64.zero) :
    serve (.POST_employee (.fields id1 name1 salary1 age1)) env db =
      serve (.POST_employee (.fields id2 name2 salary2 age2)) env db ∧
    ∃ rest, (serve (.POST_employee (.fields id1 name1 salary1 age1)) env db).2.issued =
      db.issued ++ StoreOp.InsertOne ⟨"", name1.getD "", salary1.getD Float64.zero,
        age1.getD Float64.zero⟩ :: rest := by
  have hp : parsedEmployee name1 salary1 age1 = parsedEmployee name2 salary2 age2 := by
    simp only [parsedEmployee, hname, hsalary, hage]
  constructor
  · rw [serve_post_fields, serve_post_fields, hp]
  · rw [serve_post_fields]
    show ∃ rest, _ = db.issued ++ StoreOp.InsertOne (parsedEmployee name1 salary1 age1) :: rest
    generalize parsedEmployee name1 salary1 age1 = e
    have hi := InsertOne_issued db (env.fault 0) env.NewObjectID e
    generalize db.InsertOne (env.fault 0) env.NewObjectID e = res at hi ⊢
    obtain ⟨r, db1⟩ := res
    simp only at hi
    cases r with
    | error err => exact ⟨[], by simp [hi]⟩
    | ok k => exact ⟨[.FindOne k], by simp [FindOne_issued, hi]⟩

theorem post_ignores_body_id_witness :
    serve (.POST_employee (.fields (some "abababababababababababab") (some "Bob") none
        (some ⟨41⟩))) (Env.healthy sampleId2) sampleDb =
      serve (.POST_employee (.fields none (some "Bob") (some ⟨0⟩) (some ⟨41⟩)))
        (Env.healthy sampleId2) sampleDb ∧
    ∃ rest, (serve (.POST_employee (.fields (some "abababababababababababab") (some "Bob") none
        (some ⟨41⟩))) (Env.healthy sampleId2) sampleDb).2.issued =
      sampleDb.issued ++ StoreOp.InsertOne ⟨"", "Bob", ⟨0⟩, ⟨41⟩⟩ :: rest :=
  post_ignores_body_id (Env.healthy sampleId2) sampleDb (some "abababababababababababab") none
    (some "Bob") (some "Bob") none (some ⟨0⟩) (some ⟨41⟩) (some ⟨41⟩) rfl rfl rfl

/-! ## The other handlers with the context plumbing removed -/

theorem serve_get (env : Env) (db : Collection) (body : RequestBody) :
    serve (.GET_employee body) env db =
      (match env.fault 0, env.fault 1 with
       | some msg, _ => ⟨500, .text msg⟩
       | none, some msg => ⟨500, .text msg⟩
       | none, none => sent200 ⟨1, "Employee records retrieved successfully",
           some (.employees (db.docs.map Doc.decode))⟩,
       db.log .Find) := by
  simp only [serve, getEmployees, Collection.Find]
  cases env.fault 0 with
  | some msg => rfl
  | none =>
    cases env.fault 1 with
    | some msg => rfl
    | none =>
      simp only [Cursor.All]
      rw [respond_JSON]

theorem serve_put_malformed (env : Env) (db : Collection) (idParam : String) (body : RequestBody)
    (h : ObjectIDFromHex idParam = none) :
    serve (.PUT_employee idParam body) env db = (⟨400, .text "Bad Request"⟩, db) := by
  simp only [serve, putEmployee, Ctx.fresh, Ctx.Params, h]
  rfl

theorem serve_put_unparsable (env : Env) (db : Collection) (idParam : String) (oid : ObjectID)
    (err : String) (h : ObjectIDFromHex idParam = some oid) :
    serve (.PUT_employee idParam (.unparsable err)) env db = (⟨400, .text err⟩, db) := by
  simp only [serve, putEmployee, Ctx.fresh, Ctx.Params, h]
  rfl

theorem serve_put_fields (env : Env) (db : Collection) (idParam : String) (oid : ObjectID)
    (id name : Option String) (salary age : Option Float64)
    (h : ObjectIDFromHex idParam = some oid) :
    serve (.PUT_employee idParam (.fields id name salary age)) env db =
      match db.FindOneAndUpdate (env.fault 0) (.oid oid) (name.getD "")
          (age.getD Float64.zero) (salary.getD Float64.zero) with
      | (.error .ErrNoDocuments, db1) => (⟨500, .text "Bad Request"⟩, db1)
      | (.error (.duplicateKey _), db1) => (⟨500, .text "Internal Server Error"⟩, db1)
      | (.error (.fault _), db1) => (⟨500, .text "Internal Server Error"⟩, db1)
      | (.ok _, db1) =>
        (sent200 ⟨1, "Employee record updated successfully",
            some (.employee ⟨idParam, name.getD "", salary.getD Float64.zero,
              age.getD Float64.zero⟩)⟩, db1) := by
  simp only [serve, putEmployee, Ctx.fresh, Ctx.Params, h, Ctx.BodyParser, Employee.zero]
  generalize db.FindOneAndUpdate (env.fault 0) (.oid oid) (name.getD "")
    (age.getD Float64.zero) (salary.getD Float64.zero) = res
  obtain ⟨r, db1⟩ := res
  cases r with
  | ok d =>
    simp only [SingleResult.Err]
    rw [← respond_JSON idParam (.fields id name salary age)]
    rfl
  | error err => cases err <;> rfl

theorem serve_delete_malformed (env : Env) (db : Collection) (idParam : String)
    (body : RequestBody) (h : ObjectIDFromHex idParam = none) :
    serve (.DELETE_employee idParam body) env db =
      (⟨400, .apiResponse ⟨0, "Bad Request", none⟩⟩, db) := by
  simp only [serve, deleteEmployee, Ctx.fresh, Ctx.Params, h]
  rfl

theorem serve_delete (env : Env) (db : Collection) (idParam : String) (oid : ObjectID)
    (body : RequestBody) (h : ObjectIDFromHex idParam = some oid) :
    serve (.DELETE_employee idParam body) env db =
      match db.DeleteOne (env.fault 0) (.oid oid) with
      | (.error _, db1) => (⟨500, .text "Internal Server Error"⟩, db1)
      | (.ok deletedCount, db1) =>
        if deletedCount < 1 then
          (⟨404, .map [("status", .int 0), ("message", .str "Not Found")]⟩, db1)
        else (⟨200, .map [("status", .int 1), ("message", .str "record deleted")]⟩, db1) := by
  simp only [serve, deleteEmployee, Ctx.fresh, Ctx.Params, h]
  generalize db.DeleteOne (env.fault 0) (.oid oid) = res
  obtain ⟨r, db1⟩ := res
  cases r with
  | error err => rfl
  | ok n =>
    simp only
    split_ifs <;> rfl

/-! ## Update and delete -/

theorem FindOneAndUpdate_found (db : Collection) (k : Key) (name : String) (age salary : Float64)
    (h : k ∈ db.keys) :
    ∃ d, db.FindOneAndUpdate none k name age salary =
      (.ok d, ⟨Collection.setFirst k name age salary db.docs,
        db.issued ++ [.FindOneAndUpdate k name age salary]⟩) := by
  obtain ⟨d, hd, _⟩ := find?_of_mem_keys k db.docs h
  exact ⟨d, by simp only [Collection.FindOneAndUpdate, hd, Collection.log]⟩

theorem FindOneAndUpdate_absent (db : Collection) (k : Key) (name : String)
    (age salary : Float64) (h : k ∉ db.keys) :
    db.FindOneAndUpdate none k name age salary =
      (.error .ErrNoDocuments, ⟨db.docs, db.issued ++ [.FindOneAndUpdate k name age salary]⟩) := by
  simp only [Collection.FindOneAndUpdate, find?_of_not_mem_keys k db.docs h, Collection.log]

theorem FindOneAndUpdate_fault (db : Collection) (msg : String) (k : Key) (name : String)
    (age salary : Float64) :
    db.FindOneAndUpdate (some msg) k name age salary =
      (.error (.fault msg), ⟨db.docs, db.issued ++ [.FindOneAndUpdate k name age salary]⟩) := rfl

theorem setFirst_mem (k : Key) (name : String) (age salary : Float64) (docs : List Doc)
    (h : k ∈ docs.map Doc._id) :
    (⟨k, name, salary, age⟩ : Doc) ∈ Collection.setFirst k name age salary docs := by
  induction docs with
  | nil => simp at h
  | cons d ds ih =>
    unfold Collection.setFirst
    split_ifs with hd
    · simp [hd]
    · simp only [List.map_cons, List.mem_cons] at h
      rcases h with h | h
      · exact absurd h.symm hd
      · exact List.mem_cons_of_mem _ (ih h)

/-- C4 (as stated, refuted): an update of an existing record whose body carries
the salary +Inf is applied to the collection and then answered 500, because
the JSON encoder refuses the record. -/
theorem put_infinite_salary_answers_500 :
    ObjectIDFromHex "abababababababababababab" = some sampleId ∧
    Key.oid sampleId ∈ sampleDb.keys ∧
    serve (.PUT_employee "abababababababababababab" (.fields none (some "Bob")
        (some Float64.Inf) (some ⟨41⟩))) (Env.healthy sampleId2) sampleDb =
      (⟨500, .text "json: unsupported value: +Inf"⟩,
       ⟨[⟨.oid sampleId, "Bob", Float64.Inf, ⟨41⟩⟩],
        [.FindOneAndUpdate (.oid sampleId) "Bob" ⟨41⟩ Float64.Inf]⟩) := by
  decide

/-- C4 (amended): an update of an existing record with a parsable body, carried
out by the store, leaves a collection in which the record with that key has
exactly the name, salary and age of the body (zero values for missing fields)
and keeps its `_id` whatever `id` the body carried, every other record is
unchanged and the keys are the same; it is answered 200 exactly when the
salary and age of the body are finite numbers. -/
theorem put_overwrites_record (env : Env) (db : Collection) (idParam : String) (oid : ObjectID)
    (id name : Option String) (salary age : Option Float64)
    (hid : ObjectIDFromHex idParam = some oid) (hmem : Key.oid oid ∈ db.keys)
    (huniq : db.UniqueIds) (hok : env.fault 0 = none) :
    ((salary.getD Float64.zero).isFinite = true → (age.getD Float64.zero).isFinite = true →
      (serve (.PUT_employee idParam (.fields id name salary age)) env db).1 =
        ⟨200, .apiResponse ⟨1, "Employee record updated successfully",
          some (.employee ⟨idParam, name.getD "", salary.getD Float64.zero,
            age.getD Float64.zero⟩)⟩⟩) ∧
    ((serve (.PUT_employee idParam (.fields id name salary age)) env db).1.status = 200 ↔
      (salary.getD Float64.zero).isFinite = true ∧ (age.getD Float64.zero).isFinite = true) ∧
    (serve (.PUT_employee idParam (.fields id name salary age)) env db).2.docs =
      db.docs.map (fun d => if d._id = .oid oid then
        ⟨.oid oid, name.getD "", salary.getD Float64.zero, age.getD Float64.zero⟩ else d) ∧
    (serve (.PUT_employee idParam (.fields id name salary age)) env db).2.keys = db.keys ∧
    (⟨.oid oid, name.getD "", salary.getD Float64.zero, age.getD Float64.zero⟩ : Doc) ∈
      (serve (.PUT_employee idParam (.fields id name salary age)) env db).2.docs ∧
    (∀ d ∈ (serve (.PUT_employee idParam (.fields id name salary age)) env db).2.docs,
      d._id = .oid oid →
        d.name = name.getD "" ∧ d.salary = salary.getD Float64.zero ∧
          d.age = age.getD Float64.zero) ∧
    (∀ d : Doc, d._id ≠ .oid oid →
      (d ∈ (serve (.PUT_employee idParam (.fields id name salary age)) env db).2.docs ↔
        d ∈ db.docs)) := by
  obtain ⟨d0, hd0⟩ := FindOneAndUpdate_found db (.oid oid) (name.getD "")
    (age.getD Float64.zero) (salary.getD Float64.zero) hmem
  rw [serve_put_fields env db idParam oid id name salary age hid, hok, hd0]
  have henc : (⟨1, "Employee record updated successfully",
      some (.employee ⟨idParam, name.getD "", salary.getD Float64.zero,
        age.getD Float64.zero⟩)⟩ : APIResponse).jsonError = none ↔
      (salary.getD Float64.zero).isFinite = true ∧ (age.getD Float64.zero).isFinite = true :=
    Employee.employee_jsonError_eq_none ⟨idParam, name.getD "", salary.getD Float64.zero,
      age.getD Float64.zero⟩
  have hmap := setFirst_eq_map (.oid oid) (name.getD "") (age.getD Float64.zero)
    (salary.getD Float64.zero) db.docs huniq
  have hmap2 : Collection.setFirst (.oid oid) (name.getD "") (age.getD Float64.zero)
      (salary.getD Float64.zero) db.docs =
      db.docs.map (fun d => if d._id = .oid oid then
        ⟨.oid oid, name.getD "", salary.getD Float64.zero, age.getD Float64.zero⟩ else d) := by
    rw [hmap]
    apply List.map_congr_left
    intro x _
    split_ifs with hx
    · rw [hx]
    · rfl
  refine ⟨fun hs ha => sent200_of_encodable _ (henc.2 ⟨hs, ha⟩), (sent200_status _).trans henc,
    hmap2, ?_, setFirst_mem _ _ _ _ _ hmem, ?_, ?_⟩
  · exact setFirst_keys _ _ _ _ _
  · intro d hd hkey
    have hd2 : d ∈ Collection.setFirst (.oid oid) (name.getD "") (age.getD Float64.zero)
      (salary.getD Float64.zero) db.docs := hd
    rw [hmap2, List.mem_map] at hd2
    obtain ⟨x, _, hx⟩ := hd2
    split_ifs at hx with hxk
    · subst hx
      exact ⟨rfl, rfl, rfl⟩
    · subst hx
      exact absurd hkey hxk
  · intro d hne
    show d ∈ Collection.setFirst (.oid oid) (name.getD "") (age.getD Float64.zero)
      (salary.getD Float64.zero) db.docs ↔ d ∈ db.docs
    rw [hmap2, List.mem_map]
    constructor
    · rintro ⟨x, hx, hxd⟩
      split_ifs at hxd with hxk
      · subst hxd
        exact absurd rfl hne
      · subst hxd
        exact hx
    · intro hd
      exact ⟨d, hd, by simp [hne]⟩

theorem put_overwrites_record_witness :
    ObjectIDFromHex "ABABABABABABABABABABABAB" = some sampleId ∧ Key.oid sampleId ∈ sampleDb.keys ∧
    sampleDb.UniqueIds ∧
    (serve (.PUT_employee "ABABABABABABABABABABABAB" (.fields (some "x") (some "Bob") none
        (some ⟨41⟩))) (Env.healthy sampleId2) sampleDb).1.status = 200 ∧
    (serve (.PUT_employee "ABABABABABABABABABABABAB" (.fields (some "x") (some "Bob") none
        (some ⟨41⟩))) (Env.healthy sampleId2) sampleDb).2.docs =
      sampleDb.docs.map (fun d => if d._id = .oid sampleId then
        ⟨.oid sampleId, "Bob", ⟨0⟩, ⟨41⟩⟩ else d) :=
  have h := put_overwrites_record (Env.healthy sampleId2) sampleDb "ABABABABABABABABABABABAB"
    sampleId (some "x") (some "Bob") none (some ⟨41⟩) (by decide) (by decide) (by decide) rfl
  ⟨by decide, by decide, by decide, h.2.1.2 (by decide), h.2.2.1⟩

/-- C5: for a path identifier that is not exactly 24 hexadecimal digits, and
any request body, both the update and the delete handler answer 400 and leave
the collection as it was, with no store operation issued. -/
theorem malformed_id_rejected (env : Env) (db : Collection) (idParam : String)
    (body : RequestBody)
    (h : ¬ (idParam.length = 24 ∧ ∀ c ∈ idParam.data, isHexDigit c = true)) :
    (serve (.PUT_employee idParam body) env db).1.status = 400 ∧
    (serve (.PUT_employee idParam body) env db).2 = db ∧
    (serve (.DELETE_employee idParam body) env db).1.status = 400 ∧
    (serve (.DELETE_employee idParam body) env db).2 = db := by
  have hn := (ObjectIDFromHex_eq_none_iff idParam).2 h
  rw [serve_put_malformed env db idParam body hn, serve_delete_malformed env db idParam body hn]
  exact ⟨rfl, rfl, rfl, rfl⟩

theorem malformed_id_rejected_witness :
    ¬ (("abababababababababababaz" : String).length = 24 ∧
      ∀ c ∈ ("abababababababababababaz" : String).data, isHexDigit c = true) ∧
    (serve (.PUT_employee "abababababababababababaz" (.fields none (some "Bob") none none))
      (Env.healthy sampleId2) sampleDb).1.status = 400 ∧
    (serve (.PUT_employee "abababababababababababaz" (.fields none (some "Bob") none none))
      (Env.healthy sampleId2) sampleDb).2 = sampleDb ∧
    (serve (.DELETE_employee "abababababababababababaz" (.fields none (some "Bob") none none))
      (Env.healthy sampleId2) sampleDb).1.status = 400 ∧
    (serve (.DELETE_employee "abababababababababababaz" (.fields none (some "Bob") none none))
      (Env.healthy sampleId2) sampleDb).2 = sampleDb :=
  have hbad : ¬ (("abababababababababababaz" : String).length = 24 ∧
      ∀ c ∈ ("abababababababababababaz" : String).data, isHexDigit c = true) := by decide
  ⟨hbad, malformed_id_rejected (Env.healthy sampleId2) sampleDb "abababababababababababaz"
    (.fields none (some "Bob") none none) hbad⟩

theorem DeleteOne_found (db : Collection) (k : Key) (h : k ∈ db.keys) :
    db.DeleteOne none k =
      (.ok 1, ⟨Collection.removeFirst k db.docs, db.issued ++ [.DeleteOne k]⟩) := by
  simp only [Collection.DeleteOne, h, if_true, Collection.log]

theorem DeleteOne_absent (db : Collection) (k : Key) (h : k ∉ db.keys) :
    db.DeleteOne none k = (.ok 0, ⟨db.docs, db.issued ++ [.DeleteOne k]⟩) := by
  simp only [Collection.DeleteOne, h, if_false, Collection.log]

theorem serve_delete_found (env : Env) (db : Collection) (idParam : String) (oid : ObjectID)
    (body : RequestBody) (hid : ObjectIDFromHex idParam = some oid) (hok : env.fault 0 = none)
    (h : Key.oid oid ∈ db.keys) :
    serve (.DELETE_employee idParam body) env db =
      (⟨200, .map [("status", .int 1), ("message", .str "record deleted")]⟩,
       ⟨Collection.removeFirst (.oid oid) db.docs, db.issued ++ [.DeleteOne (.oid oid)]⟩) := by
  rw [serve_delete env db idParam oid body hid, hok, DeleteOne_found db _ h]
  rfl

theorem serve_delete_absent (env : Env) (db : Collection) (idParam : String) (oid : ObjectID)
    (body : RequestBody) (hid : ObjectIDFromHex idParam = some oid) (hok : env.fault 0 = none)
    (h : Key.oid oid ∉ db.keys) :
    serve (.DELETE_employee idParam body) env db =
      (⟨404, .map [("status", .int 0), ("message", .str "Not Found")]⟩,
       ⟨db.docs, db.issued ++ [.DeleteOne (.oid oid)]⟩) := by
  rw [serve_delete env db idParam oid body hid, hok, DeleteOne_absent db _ h]
  rfl

/-- C6: a delete of a well-formed identifier, carried out by the store: when a
record with that key exists the answer is 200 with status 1, exactly that
record is removed and the others are kept; when none exists the answer is 404
with status 0 and the documents are unchanged.  Hence a second delete of the
same identifier is answered 404 and leaves the documents as the first did. -/
theorem delete_removes_record (env env2 : Env) (db : Collection) (idParam : String)
    (oid : ObjectID) (body body2 : RequestBody)
    (hid : ObjectIDFromHex idParam = some oid) (huniq : db.UniqueIds)
    (hok : env.fault 0 = none) (hok2 : env2.fault 0 = none) :
    (Key.oid oid ∈ db.keys →
      (serve (.DELETE_employee idParam body) env db).1 =
        ⟨200, .map [("status", .int 1), ("message", .str "record deleted")]⟩ ∧
      (serve (.DELETE_employee idParam body) env db).1.body.envelopeStatus = some 1 ∧
      (serve (.DELETE_employee idParam body) env db).2.docs =
        db.docs.filter (fun d => decide (d._id ≠ .oid oid)) ∧
      (serve (.DELETE_employee idParam body) env db).2.docs.length + 1 = db.docs.length ∧
      (serve (.DELETE_employee idParam body2) env2
        (serve (.DELETE_employee idParam body) env db).2).1 =
        ⟨404, .map [("status", .int 0), ("message", .str "Not Found")]⟩ ∧
      (serve (.DELETE_employee idParam body2) env2
        (serve (.DELETE_employee idParam body) env db).2).2.docs =
        (serve (.DELETE_employee idParam body) env db).2.docs) ∧
    (Key.oid oid ∉ db.keys →
      (serve (.DELETE_employee idParam body) env db).1 =
        ⟨404, .map [("status", .int 0), ("message", .str "Not Found")]⟩ ∧
      (serve (.DELETE_employee idParam body) env db).1.body.envelopeStatus = some 0 ∧
      (serve (.DELETE_employee idParam body) env db).2.docs = db.docs) := by
  constructor
  · intro hmem
    have hfilter := removeFirst_eq_filter (.oid oid) db.docs huniq
    have hgone : Key.oid oid ∉
        (⟨Collection.removeFirst (.oid oid) db.docs,
          db.issued ++ [.DeleteOne (.oid oid)]⟩ : Collection).keys := by
      show Key.oid oid ∉ (Collection.removeFirst (.oid oid) db.docs).map Doc._id
      rw [hfilter]
      intro hk
      obtain ⟨d, hd, hdk⟩ := List.mem_map.1 hk
      have := (List.mem_filter.1 hd).2
      simp [hdk] at this
    rw [serve_delete_found env db idParam oid body hid hok hmem,
      serve_delete_absent env2 _ idParam oid body2 hid hok2 hgone]
    exact ⟨rfl, rfl, hfilter, removeFirst_length _ _ hmem, rfl, rfl⟩
  · intro hmem
    rw [serve_delete_absent env db idParam oid body hid hok hmem]
    exact ⟨rfl, rfl, rfl⟩

theorem delete_removes_record_witness :
    ObjectIDFromHex "abababababababababababab" = some sampleId ∧ sampleDb.UniqueIds ∧
    (serve (.DELETE_employee "abababababababababababab" (.unparsable ""))
      (Env.healthy sampleId2) sampleDb).1 =
        ⟨200, .map [("status", .int 1), ("message", .str "record deleted")]⟩ ∧
    (serve (.DELETE_employee "abababababababababababab" (.unparsable ""))
      (Env.healthy sampleId2) sampleDb).2.docs = [] :=
  have h := (delete_removes_record (Env.healthy sampleId2) (Env.healthy sampleId2) sampleDb
    "abababababababababababab" sampleId (.unparsable "") (.unparsable "") (by decide)
    (by decide) rfl rfl).1 (by decide)
  ⟨by decide, by decide, h.1, h.2.2.1.trans (by decide)⟩

theorem serve_post_docs (env : Env) (db : Collection) (body : RequestBody) :
    db.docs <+: (serve (.POST_employee body) env db).2.docs := by
  cases body with
  | unparsable err => exact List.prefix_refl _
  | fields id name salary age =>
    rw [serve_post_fields]
    generalize parsedEmployee name salary age = e
    have hins : db.docs <+: (db.InsertOne (env.fault 0) env.NewObjectID e).2.docs := by
      unfold Collection.InsertOne
      cases env.fault 0 with
      | some msg => exact List.prefix_refl _
      | none =>
        simp only
        split_ifs
        all_goals first | exact List.prefix_refl _ | exact List.prefix_append _ _
    generalize db.InsertOne (env.fault 0) env.NewObjectID e = res at hins ⊢
    obtain ⟨r, db1⟩ := res
    cases r with
    | error err => exact hins
    | ok k =>
      have hf : (db1.FindOne (env.fault 1) k).2.docs = db1.docs := by
        unfold Collection.FindOne
        cases env.fault 1 with
        | some msg => rfl
        | none =>
          simp only
          split <;> rfl
      show db.docs <+: (db1.FindOne (env.fault 1) k).2.docs
      rw [hf]
      exact hins

theorem runCreates_docs (creates : List (RequestBody × Env)) :
    ∀ db : Collection, db.docs <+: (runCreates creates db).2.docs := by
  induction creates with
  | nil => intro db; exact List.prefix_refl _
  | cons c rest ih =>
    intro db
    obtain ⟨body, env⟩ := c
    exact (serve_post_docs env db body).trans (ih _)

theorem runCreates_length (creates : List (RequestBody × Env)) :
    ∀ db : Collection, (runCreates creates db).1.length = creates.length := by
  induction creates with
  | nil => intro db; rfl
  | cons c rest ih =>
    intro db
    obtain ⟨body, env⟩ := c
    simp only [runCreates, List.length_cons, ih]

theorem decode_jsonError_eq_none (db : Collection) :
    employeesJsonError (db.docs.map Doc.decode) = none ↔ db.AllFinite := by
  rw [employeesJsonError_eq_none]
  constructor
  · intro h d hd
    exact (Employee.employee_jsonError_eq_none _).1 (h _ (List.mem_map_of_mem Doc.decode hd))
  · intro h e he
    obtain ⟨d, hd, rfl⟩ := List.mem_map.1 he
    exact (Employee.employee_jsonError_eq_none _).2 (h d hd)

/-- The list handler when the find succeeds and every stored number is finite. -/
theorem get_of_allFinite (env : Env) (db : Collection) (body : RequestBody)
    (hfind : env.fault 0 = none) (hall : env.fault 1 = none) (hfinite : db.AllFinite) :
    serve (.GET_employee body) env db =
      (⟨200, .apiResponse ⟨1, "Employee records retrieved successfully",
          some (.employees (db.docs.map Doc.decode))⟩⟩,
       ⟨db.docs, db.issued ++ [.Find]⟩) := by
  rw [serve_get, hfind, hall]
  simp only
  have henc : (⟨1, "Employee records retrieved successfully",
      some (.employees (db.docs.map Doc.decode))⟩ : APIResponse).jsonError = none :=
    (decode_jsonError_eq_none db).2 hfinite
  rw [sent200_of_encodable _ henc]
  rfl

/-- A list request answered 200 lists the decoded documents. -/
theorem get_of_status_200 (env : Env) (db : Collection) (body : RequestBody)
    (h : (serve (.GET_employee body) env db).1.status = 200) :
    (serve (.GET_employee body) env db).1 =
      ⟨200, .apiResponse ⟨1, "Employee records retrieved successfully",
          some (.employees (db.docs.map Doc.decode))⟩⟩ := by
  rw [serve_get] at h ⊢
  cases h0 : env.fault 0 with
  | some msg =>
    rw [h0] at h
    exact absurd h (by simp)
  | none =>
    cases h1 : env.fault 1 with
    | some msg =>
      rw [h0, h1] at h
      exact absurd h (by simp)
    | none =>
      rw [h0, h1] at h
      simp only at h ⊢
      exact sent200_of_encodable _ ((sent200_status _).1 h)

theorem post_created (env : Env) (db : Collection) (id name : Option String)
    (salary age : Option Float64) (h : storeOpsSucceed env db (parsedEmployee name salary age))
    (h200 : (serve (.POST_employee (.fields id name salary age)) env db).1.status = 200) :
    serve (.POST_employee (.fields id name salary age)) env db =
      (⟨200, .apiResponse ⟨1, "Employee record insertd successfully",
          some (.employee { parsedEmployee name salary age with ID := env.NewObjectID.Hex })⟩⟩,
       ⟨db.docs ++ [⟨.oid env.NewObjectID, name.getD "", salary.getD Float64.zero,
          age.getD Float64.zero⟩],
        db.issued ++ [.InsertOne (parsedEmployee name salary age),
          .FindOne (.oid env.NewObjectID)]⟩) ∧
    (salary.getD Float64.zero).isFinite = true ∧ (age.getD Float64.zero).isFinite = true := by
  have hp := post_of_storeOpsSucceed env db id name salary age h
  rw [hp] at h200 ⊢
  have henc := (sent200_status _).1 h200
  exact ⟨by rw [sent200_of_encodable _ henc],
    (Employee.employee_jsonError_eq_none
      { parsedEmployee name salary age with ID := env.NewObjectID.Hex }).1 henc⟩

theorem runCreates_allFinite (creates : List (RequestBody × Env)) :
    ∀ db : Collection, db.AllFinite → CreatesSucceed creates db →
      (runCreates creates db).2.AllFinite := by
  induction creates with
  | nil => intro db h _; exact h
  | cons c rest ih =>
    intro db hfin hs
    obtain ⟨body, env⟩ := c
    obtain ⟨hfirst, h200, hrest⟩ := hs
    cases body with
    | unparsable err => exact absurd hfirst id
    | fields id name salary age =>
      obtain ⟨hpost, hsal, hage⟩ := post_created env db id name salary age hfirst h200
      apply ih _ _ hrest
      rw [hpost]
      intro d hd
      rcases List.mem_append.1 hd with hd | hd
      · exact hfin d hd
      · rw [List.mem_singleton.1 hd]
        exact ⟨hsal, hage⟩

theorem runCreates_listed (creates : List (RequestBody × Env)) :
    ∀ db : Collection, CreatesSucceed creates db → ∀ r ∈ (runCreates creates db).1,
      ∃ e, r = ⟨200, .apiResponse ⟨1, "Employee record insertd successfully",
          some (.employee e)⟩⟩ ∧ e ∈ (runCreates creates db).2.docs.map Doc.decode := by
  induction creates with
  | nil => intro db _ r hr; simp [runCreates] at hr
  | cons c rest ih =>
    intro db hs r hr
    obtain ⟨body, env⟩ := c
    obtain ⟨hfirst, h200, hrest⟩ := hs
    cases body with
    | unparsable err => exact absurd hfirst id
    | fields id name salary age =>
      obtain ⟨hpost, _, _⟩ := post_created env db id name salary age hfirst h200
      simp only [runCreates, List.mem_cons] at hr ⊢
      rcases hr with hr | hr
      · refine ⟨_, by rw [hr, hpost], ?_⟩
        have hpre := runCreates_docs rest (serve (.POST_employee (.fields id name salary age))
          env db).2
        apply List.mem_map.2
        refine ⟨⟨.oid env.NewObjectID, name.getD "", salary.getD Float64.zero,
          age.getD Float64.zero⟩, hpre.subset ?_, rfl⟩
        rw [hpost]
        simp
      · exact ih _ hrest r hr

/-- C7 (as stated, refuted): on a collection that holds a record whose salary
is NaN the find succeeds, and the list handler answers 500 because the JSON
encoder refuses the list. -/
theorem get_nan_record_answers_500 :
    serve (.GET_employee (.unparsable "")) (Env.healthy sampleId2) nanDb =
      (⟨500, .text "json: unsupported value: NaN"⟩,
       ⟨[⟨.oid sampleId, "Ann", Float64.NaN, ⟨30⟩⟩], [.Find]⟩) := by
  decide

/-- C7 (amended): when the find succeeds and every stored salary and age is a
finite number, the list handler answers 200 with an envelope of status 1 whose
data is the list of all documents of the collection, each decoded once, in
order (the empty list, not an absent field, for the empty collection) and
leaves the documents unchanged; hence after a run of N successful creates
(store operations succeeding, answered 200) from any such collection, the N
responses each carry a record that is a member of the data listed afterwards. -/
theorem get_lists_all_records (env : Env) (db : Collection) (body : RequestBody)
    (hfind : env.fault 0 = none) (hall : env.fault 1 = none) (hfinite : db.AllFinite) :
    serve (.GET_employee body) env db =
      (⟨200, .apiResponse ⟨1, "Employee records retrieved successfully",
          some (.employees (db.docs.map Doc.decode))⟩⟩,
       ⟨db.docs, db.issued ++ [.Find]⟩) ∧
    (db.docs = [] → (serve (.GET_employee body) env db).1.body =
      .apiResponse ⟨1, "Employee records retrieved successfully", some (.employees [])⟩) ∧
    (∀ creates : List (RequestBody × Env), CreatesSucceed creates db →
      (runCreates creates db).1.length = creates.length ∧
      ∀ r ∈ (runCreates creates db).1, ∃ e es,
        r = ⟨200, .apiResponse ⟨1, "Employee record insertd successfully",
          some (.employee e)⟩⟩ ∧
        (serve (.GET_employee body) env (runCreates creates db).2).1 =
          ⟨200, .apiResponse ⟨1, "Employee records retrieved successfully",
            some (.employees es)⟩⟩ ∧
        e ∈ es) := by
  refine ⟨get_of_allFinite env db body hfind hall hfinite, ?_, ?_⟩
  · intro hempty
    rw [get_of_allFinite env db body hfind hall hfinite, hempty]
    rfl
  · intro creates hs
    refine ⟨runCreates_length creates db, ?_⟩
    intro r hr
    obtain ⟨e, he, hmem⟩ := runCreates_listed creates db hs r hr
    exact ⟨e, _, he, by rw [get_of_allFinite env _ body hfind hall
      (runCreates_allFinite creates db hfinite hs)], hmem⟩

theorem get_lists_all_records_witness :
    sampleDb.AllFinite ∧
    CreatesSucceed [(.fields none (some "Bob") (some ⟨2000⟩) (some ⟨41⟩), Env.healthy sampleId2)]
      sampleDb ∧
    serve (.GET_employee (.unparsable "")) (Env.healthy sampleId) sampleDb =
      (⟨200, .apiResponse ⟨1, "Employee records retrieved successfully",
          some (.employees [⟨"abababababababababababab", "Ann", ⟨1000⟩, ⟨30⟩⟩])⟩⟩,
       ⟨sampleDb.docs, [.Find]⟩) ∧
    ∀ r ∈ (runCreates [(.fields none (some "Bob") (some ⟨2000⟩) (some ⟨41⟩),
        Env.healthy sampleId2)] sampleDb).1, ∃ e es,
      r = ⟨200, .apiResponse ⟨1, "Employee record insertd successfully",
        some (.employee e)⟩⟩ ∧
      (serve (.GET_employee (.unparsable "")) (Env.healthy sampleId)
        (runCreates [(.fields none (some "Bob") (some ⟨2000⟩) (some ⟨41⟩),
          Env.healthy sampleId2)] sampleDb).2).1 =
        ⟨200, .apiResponse ⟨1, "Employee records retrieved successfully",
          some (.employees es)⟩⟩ ∧
      e ∈ es :=
  have hf : sampleDb.AllFinite := by decide
  have hs : CreatesSucceed [(.fields none (some "Bob") (some ⟨2000⟩) (some ⟨41⟩),
      Env.healthy sampleId2)] sampleDb := ⟨⟨by decide, rfl⟩, by decide, trivial⟩
  have h := get_lists_all_records (Env.healthy sampleId) sampleDb (.unparsable "") rfl rfl hf
  ⟨hf, hs, h.1.trans (by decide), (h.2.2 _ hs).2⟩

/-! ## The shape of the responses -/

theorem sent200_shape (s : Int) (m : String) (d : Option Data) :
    sent200 ⟨s, m, d⟩ = ⟨200, .apiResponse ⟨s, m, d⟩⟩ ∨ ∃ t, sent200 ⟨s, m, d⟩ = ⟨500, .text t⟩ := by
  unfold sent200
  cases (⟨s, m, d⟩ : APIResponse).jsonError with
  | none => exact Or.inl rfl
  | some err => exact Or.inr ⟨err, rfl⟩

/-- The list, create and update handlers answer with a text body and status
400 or 500, or with the envelope of status 1 and status 200. -/
theorem serve_text_or_ok (req : Request) (env : Env) (db : Collection)
    (hreq : ∀ id body, req ≠ .DELETE_employee id body) :
    (∃ t, (serve req env db).1 = ⟨400, .text t⟩) ∨
    (∃ t, (serve req env db).1 = ⟨500, .text t⟩) ∨
    (∃ m d, (serve req env db).1 = ⟨200, .apiResponse ⟨1, m, d⟩⟩) := by
  cases req with
  | GET_employee body =>
    rw [serve_get]
    cases env.fault 0 with
    | some msg => exact Or.inr (Or.inl ⟨msg, rfl⟩)
    | none =>
      cases env.fault 1 with
      | some msg => exact Or.inr (Or.inl ⟨msg, rfl⟩)
      | none =>
        rcases sent200_shape 1 "Employee records retrieved successfully"
          (some (.employees (db.docs.map Doc.decode))) with h | ⟨t, h⟩
        · exact Or.inr (Or.inr ⟨_, _, h⟩)
        · exact Or.inr (Or.inl ⟨t, h⟩)
  | POST_employee body =>
    cases body with
    | unparsable err => exact Or.inl ⟨err, rfl⟩
    | fields id name salary age =>
      rw [serve_post_fields]
      generalize db.InsertOne (env.fault 0) env.NewObjectID (parsedEmployee name salary age) = res
      obtain ⟨r, db1⟩ := res
      cases r with
      | error err => exact Or.inr (Or.inl ⟨_, rfl⟩)
      | ok k =>
        rcases sent200_shape 1 "Employee record insertd successfully"
          (some (.employee (SingleResult.Decode (db1.FindOne (env.fault 1) k).1
            Employee.zero).1)) with h | ⟨t, h⟩
        · exact Or.inr (Or.inr ⟨_, _, h⟩)
        · exact Or.inr (Or.inl ⟨t, h⟩)
  | PUT_employee idParam body =>
    cases hid : ObjectIDFromHex idParam with
    | none =>
      rw [serve_put_malformed env db idParam body hid]
      exact Or.inl ⟨_, rfl⟩
    | some oid =>
      cases body with
      | unparsable err =>
        rw [serve_put_unparsable env db idParam oid err hid]
        exact Or.inl ⟨_, rfl⟩
      | fields id name salary age =>
        rw [serve_put_fields env db idParam oid id name salary age hid]
        generalize db.FindOneAndUpdate (env.fault 0) (.oid oid) (name.getD "")
          (age.getD Float64.zero) (salary.getD Float64.zero) = res
        obtain ⟨r, db1⟩ := res
        cases r with
        | ok d =>
          rcases sent200_shape 1 "Employee record updated successfully"
            (some (.employee ⟨idParam, name.getD "", salary.getD Float64.zero,
              age.getD Float64.zero⟩)) with h | ⟨t, h⟩
          · exact Or.inr (Or.inr ⟨_, _, h⟩)
          · exact Or.inr (Or.inl ⟨t, h⟩)
        | error err => cases err <;> exact Or.inr (Or.inl ⟨_, rfl⟩)
  | DELETE_employee idParam body => exact absurd rfl (hreq idParam body)

theorem serve_delete_fault (env : Env) (db : Collection) (idParam : String) (oid : ObjectID)
    (body : RequestBody) (msg : String) (hid : ObjectIDFromHex idParam = some oid)
    (hf : env.fault 0 = some msg) :
    serve (.DELETE_employee idParam body) env db =
      (⟨500, .text "Internal Server Error"⟩, ⟨db.docs, db.issued ++ [.DeleteOne (.oid oid)]⟩) := by
  rw [serve_delete env db idParam oid body hid, hf]
  rfl

/-- C8 (as stated, refuted): the update handler answers a malformed identifier
with status 400 and the plain text `Bad Request`, which is no envelope. -/
theorem put_malformed_body_is_text :
    (serve (.PUT_employee "xyz" (.fields none (some "Bob") none none))
      (Env.healthy sampleId2) sampleDb).1 = ⟨400, .text "Bad Request"⟩ ∧
    (serve (.PUT_employee "xyz" (.fields none (some "Bob") none none))
      (Env.healthy sampleId2) sampleDb).1.body.envelopeStatus = none := by
  decide

/-- C8 (amended): every response with HTTP status 200 carries an envelope of
status 1; every envelope the service sends has status 0 or 1, with status 1
exactly when the HTTP status is 200; a failure response is a plain text body
with status 400 or 500 and no envelope, unless it is one of the two failure
responses of the delete handler, the 400 for a malformed identifier and the
404 for an identifier that matched no record, which are envelopes of status 0. -/
theorem envelope_status_matches_http_status (req : Request) (env : Env) (db : Collection) :
    ((serve req env db).1.status = 200 → (serve req env db).1.body.envelopeStatus = some 1) ∧
    (∀ s, (serve req env db).1.body.envelopeStatus = some s →
      (s = 0 ∨ s = 1) ∧ (s = 1 ↔ (serve req env db).1.status = 200)) ∧
    ((serve req env db).1.status ≠ 200 →
      (∃ t, (serve req env db).1.body = .text t ∧
        (serve req env db).1.body.envelopeStatus = none ∧
        ((serve req env db).1.status = 400 ∨ (serve req env db).1.status = 500)) ∨
      (∃ id body, req = .DELETE_employee id body ∧ ObjectIDFromHex id = none ∧
        (serve req env db).1 = ⟨400, .apiResponse ⟨0, "Bad Request", none⟩⟩) ∨
      (∃ id body oid, req = .DELETE_employee id body ∧ ObjectIDFromHex id = some oid ∧
        env.fault 0 = none ∧ Key.oid oid ∉ db.keys ∧
        (serve req env db).1 =
          ⟨404, .map [("status", .int 0), ("message", .str "Not Found")]⟩)) ∧
    (∀ id body, req = .DELETE_employee id body → ObjectIDFromHex id = none →
      (serve req env db).1 = ⟨400, .apiResponse ⟨0, "Bad Request", none⟩⟩ ∧
      (serve req env db).1.body.envelopeStatus = some 0) ∧
    (∀ id body oid, req = .DELETE_employee id body → ObjectIDFromHex id = some oid →
      env.fault 0 = none → Key.oid oid ∉ db.keys →
      (serve req env db).1 = ⟨404, .map [("status", .int 0), ("message", .str "Not Found")]⟩ ∧
      (serve req env db).1.body.envelopeStatus = some 0) := by
  have htext400 : ∀ t : String, ∀ r : Response, r = ⟨400, .text t⟩ →
      (r.status = 200 → r.body.envelopeStatus = some 1) ∧
      (∀ s, r.body.envelopeStatus = some s → (s = 0 ∨ s = 1) ∧ (s = 1 ↔ r.status = 200)) ∧
      (∃ t, r.body = .text t ∧ r.body.envelopeStatus = none ∧
        (r.status = 400 ∨ r.status = 500)) := by
    intro t r hr
    subst hr
    exact ⟨fun h => absurd h (by simp), fun s hs => absurd hs (by simp [Body.envelopeStatus]),
      ⟨t, rfl, rfl, Or.inl rfl⟩⟩
  have htext500 : ∀ t : String, ∀ r : Response, r = ⟨500, .text t⟩ →
      (r.status = 200 → r.body.envelopeStatus = some 1) ∧
      (∀ s, r.body.envelopeStatus = some s → (s = 0 ∨ s = 1) ∧ (s = 1 ↔ r.status = 200)) ∧
      (∃ t, r.body = .text t ∧ r.body.envelopeStatus = none ∧
        (r.status = 400 ∨ r.status = 500)) := by
    intro t r hr
    subst hr
    exact ⟨fun h => absurd h (by simp), fun s hs => absurd hs (by simp [Body.envelopeStatus]),
      ⟨t, rfl, rfl, Or.inr rfl⟩⟩
  have e404 : Body.envelopeStatus (.map [("status", .int 0), ("message", .str "Not Found")]) =
      some 0 := by decide
  have e200 : Body.envelopeStatus (.map [("status", .int 1), ("message", .str "record deleted")]) =
      some 1 := by decide
  by_cases hdel : ∃ id body, req = .DELETE_employee id body
  · obtain ⟨idParam, body, rfl⟩ := hdel
    cases hid : ObjectIDFromHex idParam with
    | none =>
      rw [serve_delete_malformed env db idParam body hid]
      refine ⟨fun h => absurd h (by simp), fun s hs => ?_,
        fun _ => Or.inr (Or.inl ⟨idParam, body, rfl, hid, rfl⟩), fun _ _ _ _ => ⟨rfl, rfl⟩, ?_⟩
      · simp only [Body.envelopeStatus, Option.some.injEq] at hs
        subst hs
        exact ⟨Or.inl rfl, fun h => absurd h (by simp), fun h => absurd h (by simp)⟩
      · intro id2 body2 oid2 hreq hid2
        simp only [Request.DELETE_employee.injEq] at hreq
        rw [← hreq.1, hid] at hid2
        exact absurd hid2 (by simp)
    | some oid =>
      have hnone : ∀ id2 body2, Request.DELETE_employee idParam body =
          .DELETE_employee id2 body2 → ObjectIDFromHex id2 = none → False := by
        intro id2 body2 hreq hid2
        simp only [Request.DELETE_employee.injEq] at hreq
        rw [← hreq.1, hid] at hid2
        exact absurd hid2 (by simp)
      cases hf : env.fault 0 with
      | some msg =>
        rw [serve_delete_fault env db idParam oid body msg hid hf]
        obtain ⟨h1, h2, h3⟩ := htext500 "Internal Server Error" _ rfl
        refine ⟨h1, h2, fun _ => Or.inl h3, fun id2 body2 hreq hid2 =>
          (hnone id2 body2 hreq hid2).elim, ?_⟩
        intro id2 body2 oid2 _ _ hf2
        exact absurd hf2 (by simp)
      | none =>
        by_cases hmem : Key.oid oid ∈ db.keys
        · rw [serve_delete_found env db idParam oid body hid hf hmem]
          refine ⟨fun _ => e200, fun s hs => ?_, fun h => absurd rfl h,
            fun id2 body2 hreq hid2 => (hnone id2 body2 hreq hid2).elim, ?_⟩
          · have h1 : s = 1 := by
              have : (some 1 : Option Int) = some s := hs
              exact (Option.some.inj this).symm
            subst h1
            exact ⟨Or.inr rfl, fun _ => rfl, fun _ => rfl⟩
          · intro id2 body2 oid2 hreq hid2 _ hk
            simp only [Request.DELETE_employee.injEq] at hreq
            rw [← hreq.1, hid] at hid2
            simp only [Option.some.injEq] at hid2
            rw [← hid2] at hk
            exact absurd hmem hk
        · rw [serve_delete_absent env db idParam oid body hid hf hmem]
          refine ⟨fun h => absurd h (by simp), fun s hs => ?_,
            fun _ => Or.inr (Or.inr ⟨idParam, body, oid, rfl, hid, rfl, hmem, rfl⟩),
            fun id2 body2 hreq hid2 => (hnone id2 body2 hreq hid2).elim,
            fun _ _ _ _ _ _ _ => ⟨rfl, e404⟩⟩
          have h0 : s = 0 := by
            have : (some 0 : Option Int) = some s := hs
            exact (Option.some.inj this).symm
          subst h0
          exact ⟨Or.inl rfl, fun h => absurd h (by simp), fun h => absurd h (by simp)⟩
  · have hreq : ∀ id body, req ≠ .DELETE_employee id body :=
      fun id body h => hdel ⟨id, body, h⟩
    have hd1 : ∀ id body, req = .DELETE_employee id body → ObjectIDFromHex id = none →
        (serve req env db).1 = ⟨400, .apiResponse ⟨0, "Bad Request", none⟩⟩ ∧
        (serve req env db).1.body.envelopeStatus = some 0 :=
      fun id body h => absurd h (hreq id body)
    have hd2 : ∀ id body oid, req = .DELETE_employee id body → ObjectIDFromHex id = some oid →
        env.fault 0 = none → Key.oid oid ∉ db.keys →
        (serve req env db).1 =
          ⟨404, .map [("status", .int 0), ("message", .str "Not Found")]⟩ ∧
        (serve req env db).1.body.envelopeStatus = some 0 :=
      fun id body _ h => absurd h (hreq id body)
    rcases serve_text_or_ok req env db hreq with ⟨t, h⟩ | ⟨t, h⟩ | ⟨m, d, h⟩
    · obtain ⟨h1, h2, h3⟩ := htext400 t _ h
      exact ⟨h1, h2, fun _ => Or.inl h3, hd1, hd2⟩
    · obtain ⟨h1, h2, h3⟩ := htext500 t _ h
      exact ⟨h1, h2, fun _ => Or.inl h3, hd1, hd2⟩
    · refine ⟨fun _ => by rw [h]; rfl, fun s hs => ?_, fun hne => absurd (by rw [h]) hne,
        hd1, hd2⟩
      rw [h] at hs ⊢
      simp only [Body.envelopeStatus, Option.some.injEq] at hs
      subst hs
      exact ⟨Or.inr rfl, fun _ => rfl, fun _ => rfl⟩

/-! ## The not-found path of the update handler, and the returned identifier -/

/-- C9 (evaluation at the failing input): an update of a well-formed identifier
that is the key of no record ends with status 500; the 400 set for the
not-found condition is overwritten because the handler does not return after
it, and only its text `Bad Request` remains. -/
theorem put_absent_record_answers_500 :
    serve (.PUT_employee "abababababababababababab" (.fields none (some "Bob") (some ⟨2000⟩)
        (some ⟨41⟩))) (Env.healthy sampleId2) ⟨[], []⟩ =
      (⟨500, .text "Bad Request"⟩,
       ⟨[], [.FindOneAndUpdate (.oid sampleId) "Bob" ⟨41⟩ ⟨2000⟩]⟩) ∧
    (serve (.PUT_employee "abababababababababababab" (.fields none (some "Bob") (some ⟨2000⟩)
        (some ⟨41⟩))) (Env.failing 0 "connection reset" sampleId2) ⟨[], []⟩).1.status = 500 := by
  decide

/-- The update handler answers every failed store operation with status 500,
the not-found condition included, and leaves the documents unchanged. -/
theorem put_store_failure (env : Env) (db : Collection) (idParam : String) (oid : ObjectID)
    (id name : Option String) (salary age : Option Float64)
    (hid : ObjectIDFromHex idParam = some oid)
    (h : Key.oid oid ∉ db.keys ∨ env.fault 0 ≠ none) :
    (serve (.PUT_employee idParam (.fields id name salary age)) env db).1.status = 500 ∧
    (serve (.PUT_employee idParam (.fields id name salary age)) env db).2.docs = db.docs := by
  rw [serve_put_fields env db idParam oid id name salary age hid]
  cases hf : env.fault 0 with
  | some msg =>
    rw [FindOneAndUpdate_fault]
    exact ⟨rfl, rfl⟩
  | none =>
    rcases h with h | h
    · rw [FindOneAndUpdate_absent db _ _ _ _ h]
      exact ⟨rfl, rfl⟩
    · exact absurd hf h

/-- C10 (as stated, refuted): an update through an identifier written with
uppercase digits returns that spelling as the record's id, while the list
handler afterwards reports the same record under the lowercase rendering. -/
theorem put_uppercase_id_differs_from_listed :
    (serve (.PUT_employee "ABABABABABABABABABABABAB" (.fields none (some "Bob") (some ⟨2000⟩)
        (some ⟨41⟩))) (Env.healthy sampleId2) sampleDb).1 =
      ⟨200, .apiResponse ⟨1, "Employee record updated successfully",
        some (.employee ⟨"ABABABABABABABABABABABAB", "Bob", ⟨2000⟩, ⟨41⟩⟩)⟩⟩ ∧
    (serve (.GET_employee (.unparsable "")) (Env.healthy sampleId2)
      (serve (.PUT_employee "ABABABABABABABABABABABAB" (.fields none (some "Bob") (some ⟨2000⟩)
        (some ⟨41⟩))) (Env.healthy sampleId2) sampleDb).2).1 =
      ⟨200, .apiResponse ⟨1, "Employee records retrieved successfully",
        some (.employees [⟨"abababababababababababab", "Bob", ⟨2000⟩, ⟨41⟩⟩])⟩⟩ ∧
    ("ABABABABABABABABABABABAB" : String) ≠ "abababababababababababab" := by
  decide

/-- C10 (amended): for every update answered 200, the id of the returned data
record is the path identifier exactly as it was written; a subsequent list
request answered 200 reports the record under the lowercase-hex rendering of
the object id, and the two agree exactly when the path identifier contains no
uppercase digit. -/
theorem put_returns_path_id (env env2 : Env) (db : Collection) (idParam : String)
    (body body2 : RequestBody)
    (h200 : (serve (.PUT_employee idParam body) env db).1.status = 200)
    (hget : (serve (.GET_employee body2) env2
      (serve (.PUT_employee idParam body) env db).2).1.status = 200) :
    ∃ oid e es, ObjectIDFromHex idParam = some oid ∧
      (serve (.PUT_employee idParam body) env db).1.body =
        .apiResponse ⟨1, "Employee record updated successfully", some (.employee e)⟩ ∧
      e.ID = idParam ∧
      (serve (.GET_employee body2) env2 (serve (.PUT_employee idParam body) env db).2).1 =
        ⟨200, .apiResponse ⟨1, "Employee records retrieved successfully",
          some (.employees es)⟩⟩ ∧
      { e with ID := oid.Hex } ∈ es ∧
      (e.ID = oid.Hex ↔ ∀ c ∈ idParam.data, isLowerHexDigit c = true) := by
  have hlist := get_of_status_200 env2 _ body2 hget
  cases hid : ObjectIDFromHex idParam with
  | none =>
    rw [serve_put_malformed env db idParam body hid] at h200
    exact absurd h200 (by simp)
  | some oid =>
    cases body with
    | unparsable err =>
      rw [serve_put_unparsable env db idParam oid err hid] at h200
      exact absurd h200 (by simp)
    | fields id name salary age =>
      have hfail := put_store_failure env db idParam oid id name salary age hid
      have hmem : Key.oid oid ∈ db.keys := by
        by_contra hk
        rw [(hfail (Or.inl hk)).1] at h200
        exact absurd h200 (by decide)
      have hok : env.fault 0 = none := by
        by_contra hf
        rw [(hfail (Or.inr hf)).1] at h200
        exact absurd h200 (by decide)
      obtain ⟨d0, hd0⟩ := FindOneAndUpdate_found db (.oid oid) (name.getD "")
        (age.getD Float64.zero) (salary.getD Float64.zero) hmem
      rw [serve_put_fields env db idParam oid id name salary age hid, hok, hd0] at h200 hlist ⊢
      simp only at h200 hlist ⊢
      rw [sent200_of_encodable _ ((sent200_status _).1 h200)]
      refine ⟨oid, ⟨idParam, name.getD "", salary.getD Float64.zero, age.getD Float64.zero⟩,
        _, rfl, rfl, rfl, hlist, ?_, ?_⟩
      · exact List.mem_map.2 ⟨_, setFirst_mem (.oid oid) (name.getD "") (age.getD Float64.zero)
          (salary.getD Float64.zero) db.docs hmem, rfl⟩
      · constructor
        · intro h c hc
          have h2 : idParam = oid.Hex := h
          rw [h2] at hc
          exact Hex_lower oid c hc
        · intro h
          exact (Hex_ObjectIDFromHex idParam oid hid h).symm

theorem put_returns_path_id_witness :
    (serve (.PUT_employee "abababababababababababab" (.fields none (some "Bob") (some ⟨2000⟩)
      (some ⟨41⟩))) (Env.healthy sampleId2) sampleDb).1.status = 200 ∧
    (serve (.GET_employee (.unparsable "")) (Env.healthy sampleId)
      (serve (.PUT_employee "abababababababababababab" (.fields none (some "Bob")
        (some ⟨2000⟩) (some ⟨41⟩))) (Env.healthy sampleId2) sampleDb).2).1.status = 200 ∧
    ∃ oid e es, ObjectIDFromHex "abababababababababababab" = some oid ∧
      (serve (.PUT_employee "abababababababababababab" (.fields none (some "Bob")
        (some ⟨2000⟩) (some ⟨41⟩))) (Env.healthy sampleId2) sampleDb).1.body =
        .apiResponse ⟨1, "Employee record updated successfully", some (.employee e)⟩ ∧
      e.ID = "abababababababababababab" ∧
      (serve (.GET_employee (.unparsable "")) (Env.healthy sampleId)
        (serve (.PUT_employee "abababababababababababab" (.fields none (some "Bob")
          (some ⟨2000⟩) (some ⟨41⟩))) (Env.healthy sampleId2) sampleDb).2).1 =
        ⟨200, .apiResponse ⟨1, "Employee records retrieved successfully",
          some (.employees es)⟩⟩ ∧
      { e with ID := oid.Hex } ∈ es ∧
      (e.ID = oid.Hex ↔
        ∀ c ∈ ("abababababababababababab" : String).data, isLowerHexDigit c = true) :=
  ⟨by decide, by decide, put_returns_path_id (Env.healthy sampleId2) (Env.healthy sampleId)
    sampleDb "abababababababababababab" (.fields none (some "Bob") (some ⟨2000⟩) (some ⟨41⟩))
    (.unparsable "") (by decide) (by decide)⟩

/-! ## The store invariant is kept by every request -/

theorem InsertOne_unique (db : Collection) (fault : Option String) (gen : ObjectID)
    (e : Employee) (h : db.UniqueIds) : (db.InsertOne fault gen e).2.UniqueIds := by
  unfold Collection.InsertOne
  cases fault with
  | some msg => exact h
  | none =>
    simp only
    split_ifs with h1 h2 h2
    · exact h
    · show ((db.docs ++ [_]).map Doc._id).Nodup
      rw [List.map_append]
      exact List.Nodup.append h (by simp) (by simpa [Collection.keys] using h2)
    · exact h
    · show ((db.docs ++ [_]).map Doc._id).Nodup
      rw [List.map_append]
      exact List.Nodup.append h (by simp) (by simpa [Collection.keys] using h2)

theorem FindOne_docs (db : Collection) (fault : Option String) (k : Key) :
    (db.FindOne fault k).2.docs = db.docs := by
  unfold Collection.FindOne
  cases fault with
  | some msg => rfl
  | none =>
    simp only
    split <;> rfl

theorem FindOneAndUpdate_keys (db : Collection) (fault : Option String) (k : Key)
    (name : String) (age salary : Float64) :
    (db.FindOneAndUpdate fault k name age salary).2.keys = db.keys := by
  unfold Collection.FindOneAndUpdate
  cases fault with
  | some msg => rfl
  | none =>
    simp only
    split
    · exact setFirst_keys _ _ _ _ _
    · rfl

theorem removeFirst_sublist (k : Key) (docs : List Doc) :
    (Collection.removeFirst k docs).Sublist docs := by
  induction docs with
  | nil => exact List.Sublist.refl _
  | cons d ds ih =>
    unfold Collection.removeFirst
    split_ifs
    · exact List.sublist_cons_self _ _
    · exact ih.cons₂ _

theorem DeleteOne_unique (db : Collection) (fault : Option String) (k : Key)
    (h : db.UniqueIds) : (db.DeleteOne fault k).2.UniqueIds := by
  unfold Collection.DeleteOne
  cases fault with
  | some msg => exact h
  | none =>
    simp only
    split_ifs
    · exact List.Nodup.sublist ((removeFirst_sublist k db.docs).map Doc._id) h
    · exact h

/-- Every request leaves a collection with unique `_id` values in that state. -/
theorem serve_preserves_UniqueIds (req : Request) (env : Env) (db : Collection)
    (h : db.UniqueIds) : (serve req env db).2.UniqueIds := by
  cases req with
  | GET_employee body =>
    rw [serve_get]
    exact h
  | POST_employee body =>
    cases body with
    | unparsable err => exact h
    | fields id name salary age =>
      rw [serve_post_fields]
      have hins := InsertOne_unique db (env.fault 0) env.NewObjectID
        (parsedEmployee name salary age) h
      generalize db.InsertOne (env.fault 0) env.NewObjectID (parsedEmployee name salary age) =
        res at hins ⊢
      obtain ⟨r, db1⟩ := res
      cases r with
      | error err => exact hins
      | ok k =>
        show ((db1.FindOne (env.fault 1) k).2.docs.map Doc._id).Nodup
        rw [FindOne_docs]
        exact hins
  | PUT_employee idParam body =>
    cases hid : ObjectIDFromHex idParam with
    | none =>
      rw [serve_put_malformed env db idParam body hid]
      exact h
    | some oid =>
      cases body with
      | unparsable err =>
        rw [serve_put_unparsable env db idParam oid err hid]
        exact h
      | fields id name salary age =>
        rw [serve_put_fields env db idParam oid id name salary age hid]
        have hk := FindOneAndUpdate_keys db (env.fault 0) (.oid oid) (name.getD "")
          (age.getD Float64.zero) (salary.getD Float64.zero)
        generalize db.FindOneAndUpdate (env.fault 0) (.oid oid) (name.getD "")
          (age.getD Float64.zero) (salary.getD Float64.zero) = res at hk ⊢
        obtain ⟨r, db1⟩ := res
        have hu : db1.UniqueIds := by
          show db1.keys.Nodup
          rw [show db1.keys = db.keys from hk]
          exact h
        cases r with
        | ok d => exact hu
        | error err => cases err <;> exact hu
  | DELETE_employee idParam body =>
    cases hid : ObjectIDFromHex idParam with
    | none =>
      rw [serve_delete_malformed env db idParam body hid]
      exact h
    | some oid =>
      rw [serve_delete env db idParam oid body hid]
      have hd := DeleteOne_unique db (env.fault 0) (.oid oid) h
      generalize db.DeleteOne (env.fault 0) (.oid oid) = res at hd ⊢
      obtain ⟨r, db1⟩ := res
      cases r with
      | error err => exact hd
      | ok n =>
        simp only
        split_ifs <;> exact hd

end HRMS
